import Mathlib

/-!
Verification of the answer-resolution pipeline of the RegulAIte repository
(`rag/pipeline.py`, `rag/schema.py`, `rag/foundry_client.py`).

Strings are modelled as `List Char` (the type `Str` below); Python text
operations (`str.strip`, `str.lower`, `str.replace`, substring tests, the
regular expressions used by the pipeline) are embedded as executable
functions on `Str`.  JSON decoding (`json.loads`) is embedded as a
fuel-indexed recursive-descent parser producing `PyVal`, a model of the
Python values that `json.loads` can return.  Pydantic validation of the
`RegulAIteAnswer` model (pydantic v2 semantics — `rag/main.py` calls the
v2-only `model_dump` — so no int/str coercion, extra keys ignored) is
embedded as `validateAnswer`.
-/

namespace RegulAIte

/-- Python strings are modelled as lists of characters. -/
abbrev Str := List Char

/-- Shorthand turning a Lean string literal into the model type. -/
def S (s : String) : Str := s.data

/-- Whitespace as Python sees it (`str.strip`, `str.isspace`, and `\s` of
the `re` module on `str` patterns): ASCII whitespace, the C1 controls
Python counts as space, and the Unicode space separators. -/
def isPySpace (c : Char) : Bool :=
  let n := c.toNat
  n = 32 || (9 ≤ n && n ≤ 13) || (28 ≤ n && n ≤ 31) ||
  n = 0x85 || n = 0xA0 || n = 0x1680 || (0x2000 ≤ n && n ≤ 0x200A) ||
  n = 0x2028 || n = 0x2029 || n = 0x202F || n = 0x205F || n = 0x3000

/-- Python `str.strip()`. -/
def pyStrip (l : Str) : Str :=
  (l.dropWhile isPySpace).rdropWhile isPySpace

/-- Python `str.lower()` (ASCII part; the pipeline's phrase tables are ASCII). -/
def toLowerStr (l : Str) : Str := l.map Char.toLower

/-- Python truthiness of a string: non-empty. -/
def pyOr (a b : Str) : Str := if a = [] then b else a

/-- Python `str.replace(pat, rep)` — leftmost, non-overlapping, all
occurrences — with explicit fuel (`replaceAll` instantiates it). -/
def replaceAllF (pat rep : Str) : Nat → Str → Str
  | 0, l => l
  | _ + 1, [] => []
  | f + 1, x :: rest =>
      if pat ≠ [] ∧ pat.isPrefixOf (x :: rest) then
        rep ++ replaceAllF pat rep f ((x :: rest).drop pat.length)
      else
        x :: replaceAllF pat rep f rest

/-- Python `str.replace(pat, rep)`. -/
def replaceAll (l pat rep : Str) : Str := replaceAllF pat rep l.length l

/-- Characters allowed in a fence language tag: `[a-zA-Z0-9_-]`. -/
def isFenceTagChar (c : Char) : Bool :=
  (('a' ≤ c && c ≤ 'z') || ('A' ≤ c && c ≤ 'Z') || ('0' ≤ c && c ≤ '9') ||
   c = '_' || c = '-')

/-- Drop the last `n` characters. -/
def dropLastN (n : Nat) (l : Str) : Str := l.take (l.length - n)

/-- `_strip_code_fences` of `rag/pipeline.py`:
strip, then if the text starts with ``` remove
`^```[a-zA-Z0-9_-]*\s*` and `\s*```$`, then strip again. -/
def stripCodeFences (s : Str) : Str :=
  let s := pyStrip s
  if (S "```").isPrefixOf s then
    let s1 := ((s.drop 3).dropWhile isFenceTagChar).dropWhile isPySpace
    let s2 := if (S "```").isSuffixOf s1 then
                (dropLastN 3 s1).rdropWhile isPySpace
              else s1
    pyStrip s2
  else s

/-- One attempt of the regex `,\s*C` (C a closing bracket) at the position
right after a comma: skip Python whitespace, expect `c`, return the rest. -/
def takeCommaClose (c : Char) (l : Str) : Option Str :=
  match l.dropWhile isPySpace with
  | [] => none
  | x :: r => if x = c then some r else none

/-- `re.sub(r",\s*C", "C", raw)` (C `}` or `]`): leftmost non-overlapping
replacement of every comma-whitespace-close sequence by the close alone,
with explicit fuel. -/
def subCommaCloseF (c : Char) : Nat → Str → Str
  | 0, l => l
  | _ + 1, [] => []
  | f + 1, x :: rest =>
      if x = ',' then
        match takeCommaClose c rest with
        | some r => c :: subCommaCloseF c f r
        | none => ',' :: subCommaCloseF c f rest
      else x :: subCommaCloseF c f rest

/-- `re.sub(r",\s*C", "C", raw)` with adequate fuel. -/
def subCommaClose (c : Char) (l : Str) : Str := subCommaCloseF c l.length l

/-- Does the pattern `,\s*C` occur anywhere in `l`? -/
def occursCommaClose (c : Char) : Str → Bool
  | [] => false
  | x :: rest =>
      (if x = ',' then (takeCommaClose c rest).isSome else false)
      || occursCommaClose c rest

/-- Index of the last occurrence of `c` in `l`. -/
def findLastIdx (c : Char) (l : Str) : Option Nat :=
  match l.reverse.findIdx? (· = c) with
  | none => none
  | some k => some (l.length - 1 - k)

/-- `re.search(r"\{.*\}", text, flags=re.DOTALL)`: the span from the first
`\x7b` to the last `\x7d` after it, if any. -/
def braceSpan (l : Str) : Option Str :=
  match l.findIdx? (· = '{') with
  | none => none
  | some i =>
      match findLastIdx '}' l with
      | none => none
      | some j => if i < j then some ((l.drop i).take (j - i + 1)) else none

/-! ## Python values produced by `json.loads` -/

/-- The Python values `json.loads` can return.  Floats keep their source
lexeme (only their truthiness and their not-being-a-string matter to the
pipeline). -/
inductive PyVal where
  | none
  | bool (b : Bool)
  | int (n : Int)
  | float (lexeme : Str)
  | str (s : Str)
  | list (xs : List PyVal)
  | dict (kvs : List (Str × PyVal))

/-- Whether a float lexeme denotes a non-zero value: some digit of the
mantissa (before the exponent marker) is non-zero. -/
def floatLexemeNonzero (l : Str) : Bool :=
  (l.takeWhile (fun c => c ≠ 'e' ∧ c ≠ 'E')).any (fun c => '1' ≤ c && c ≤ '9')

/-- Python truthiness of a `PyVal`. -/
def pyTruthy : PyVal → Bool
  | .none => false
  | .bool b => b
  | .int n => n != 0
  | .float l => floatLexemeNonzero l
  | .str s => !s.isEmpty
  | .list xs => !xs.isEmpty
  | .dict kvs => !kvs.isEmpty

/-- `dict.get`: first binding of the key (the parser already collapsed
duplicate keys the way a Python dict does). -/
def dictGet (kvs : List (Str × PyVal)) (k : Str) : Option PyVal :=
  match kvs.find? (fun kv => kv.1 = k) with
  | some kv => some kv.2
  | Option.none => none

/-- Insertion with Python-dict semantics: an existing key keeps its
position and gets the new value, a new key is appended. -/
def dictInsert (kvs : List (Str × PyVal)) (k : Str) (v : PyVal) :
    List (Str × PyVal) :=
  if kvs.any (fun kv => kv.1 = k) then
    kvs.map (fun kv => if kv.1 = k then (k, v) else kv)
  else kvs ++ [(k, v)]

/-! ## `json.loads` as a fuel-indexed recursive-descent parser -/

/-- JSON inter-token whitespace (strict JSON: space, tab, newline, return). -/
def isJsonWs (c : Char) : Bool :=
  c = ' ' || c = '\t' || c = '\n' || c = '\r'

/-- Hex digit value. -/
def hexVal (c : Char) : Option Nat :=
  if '0' ≤ c ∧ c ≤ '9' then some (c.toNat - '0'.toNat)
  else if 'a' ≤ c ∧ c ≤ 'f' then some (c.toNat - 'a'.toNat + 10)
  else if 'A' ≤ c ∧ c ≤ 'F' then some (c.toNat - 'A'.toNat + 10)
  else none

/-- Four hex digits. -/
def hex4 : Str → Option (Nat × Str)
  | a :: b :: c :: d :: rest => do
      let va ← hexVal a
      let vb ← hexVal b
      let vc ← hexVal c
      let vd ← hexVal d
      some (((va * 16 + vb) * 16 + vc) * 16 + vd, rest)
  | _ => none

/-- JSON string body after the opening quote.  Strict mode: raw control
characters are rejected; surrogate pairs combine; a lone surrogate is not
representable as a `Char` and is rejected (Python would keep it — no
pipeline input exercised here contains one). -/
def parseJStrF : Nat → Str → Option (Str × Str)
  | 0, _ => none
  | _ + 1, [] => none
  | f + 1, c :: rest =>
      if c = '"' then some ([], rest)
      else if c = '\\' then
        match rest with
        | [] => none
        | e :: r2 =>
            if e = 'u' then
              match hex4 r2 with
              | some (n, r3) =>
                  if 0xD800 ≤ n ∧ n ≤ 0xDBFF then
                    match r3 with
                    | '\\' :: 'u' :: r4 =>
                        match hex4 r4 with
                        | some (m, r5) =>
                            if 0xDC00 ≤ m ∧ m ≤ 0xDFFF then
                              let cp := 0x10000 + (n - 0xD800) * 0x400 + (m - 0xDC00)
                              (parseJStrF f r5).map
                                (fun p => (Char.ofNat cp :: p.1, p.2))
                            else none
                        | Option.none => none
                    | _ => none
                  else if 0xDC00 ≤ n ∧ n ≤ 0xDFFF then none
                  else (parseJStrF f r3).map (fun p => (Char.ofNat n :: p.1, p.2))
              | Option.none => none
            else
              let esc : Option Char :=
                if e = '"' then some '"'
                else if e = '\\' then some '\\'
                else if e = '/' then some '/'
                else if e = 'b' then some (Char.ofNat 8)
                else if e = 'f' then some (Char.ofNat 12)
                else if e = 'n' then some '\n'
                else if e = 'r' then some '\x0d'
                else if e = 't' then some '\t'
                else none
              match esc with
              | some ch => (parseJStrF f r2).map (fun p => (ch :: p.1, p.2))
              | Option.none => none
      else if c.toNat < 0x20 then none
      else (parseJStrF f rest).map (fun p => (c :: p.1, p.2))

/-- JSON number: `-?(0|[1-9][0-9]*)(\.[0-9]+)?([eE][-+]?[0-9]+)?`.
Returns the lexeme split off the rest, plus whether it is an integer. -/
def parseJNum (l : Str) : Option (Str × Bool × Str) :=
  let isDigit : Char → Bool := fun c => '0' ≤ c && c ≤ '9'
  let (sign, l1) := if l.head? = some '-' then ([('-' : Char)], l.drop 1) else ([], l)
  match l1 with
  | [] => none
  | d :: _ =>
      if ¬ isDigit d then none
      else
        let intPart := if d = '0' then ['0'] else l1.takeWhile isDigit
        let r1 := l1.drop intPart.length
        if d = '0' ∧ (l1.drop 1).head?.any isDigit then none
        else
          let (frac, r2) :=
            match r1 with
            | '.' :: t =>
                let ds := t.takeWhile isDigit
                if ds = [] then ([], r1) else ('.' :: ds, t.drop ds.length)
            | _ => ([], r1)
          if r1 ≠ [] ∧ r1.head? = some '.' ∧ frac = [] then none
          else
            let (ex, r3) :=
              match r2 with
              | e :: t =>
                  if e = 'e' ∨ e = 'E' then
                    let (sgn, t1) :=
                      match t with
                      | s :: t1 => if s = '+' ∨ s = '-' then ([s], t1) else ([], t)
                      | [] => ([], t)
                    let ds := t1.takeWhile isDigit
                    if ds = [] then ([], r2) else (e :: (sgn ++ ds), t1.drop ds.length)
                  else ([], r2)
              | [] => ([], r2)
            some (sign ++ intPart ++ frac ++ ex, frac = [] ∧ ex = [], r3)

/-- Digits to an integer. -/
def digitsToNat (l : Str) : Nat :=
  l.foldl (fun acc c => acc * 10 + (c.toNat - '0'.toNat)) 0

mutual

/-- One JSON value (after skipping leading whitespace), returning the rest. -/
def parseJValF : Nat → Str → Option (PyVal × Str)
  | 0, _ => none
  | f + 1, l =>
      let l := l.dropWhile isJsonWs
      match l with
      | [] => none
      | '{' :: r => parseJObjF f r []
      | '[' :: r => parseJArrF f r []
      | '"' :: r => (parseJStrF (f + 1) r).map (fun p => (PyVal.str p.1, p.2))
      | 't' :: r =>
          if (S "rue").isPrefixOf r then some (.bool true, r.drop 3) else none
      | 'f' :: r =>
          if (S "alse").isPrefixOf r then some (.bool false, r.drop 4) else none
      | 'n' :: r =>
          if (S "ull").isPrefixOf r then some (.none, r.drop 3) else none
      | 'N' :: r =>
          if (S "aN").isPrefixOf r then some (.float (S "NaN"), r.drop 2) else none
      | 'I' :: r =>
          if (S "nfinity").isPrefixOf r then some (.float (S "Infinity"), r.drop 7)
          else none
      | '-' :: 'I' :: r =>
          if (S "nfinity").isPrefixOf r then some (.float (S "-Infinity"), r.drop 7)
          else none
      | c :: _ =>
          if c = '-' ∨ ('0' ≤ c ∧ c ≤ '9') then
            match parseJNum l with
            | some (lex, isInt, rest) =>
                if isInt then
                  let mag : Int := digitsToNat (lex.filter (fun c => c ≠ '-'))
                  some (.int (if lex.head? = some '-' then -mag else mag), rest)
                else some (.float lex, rest)
            | Option.none => none
          else none

/-- Object members after `\x7b`, accumulating dict-semantics bindings. -/
def parseJObjF : Nat → Str → List (Str × PyVal) → Option (PyVal × Str)
  | 0, _, _ => none
  | f + 1, l, acc =>
      let l := l.dropWhile isJsonWs
      match l with
      | '}' :: r => if acc.isEmpty then some (.dict [], r) else none
      | '"' :: r =>
          match parseJStrF (f + 1) r with
          | some (key, r2) =>
              let r3 := r2.dropWhile isJsonWs
              match r3 with
              | ':' :: r4 =>
                  match parseJValF f r4 with
                  | some (v, r5) =>
                      let acc' := dictInsert acc key v
                      let r6 := r5.dropWhile isJsonWs
                      match r6 with
                      | ',' :: r7 => parseJObjMoreF f r7 acc'
                      | '}' :: r7 => some (.dict acc', r7)
                      | _ => none
                  | Option.none => none
              | _ => none
          | Option.none => none
      | _ => none

/-- After a comma inside an object: the next member is mandatory. -/
def parseJObjMoreF : Nat → Str → List (Str × PyVal) → Option (PyVal × Str)
  | 0, _, _ => none
  | f + 1, l, acc =>
      let l := l.dropWhile isJsonWs
      match l with
      | '"' :: r =>
          match parseJStrF (f + 1) r with
          | some (key, r2) =>
              let r3 := r2.dropWhile isJsonWs
              match r3 with
              | ':' :: r4 =>
                  match parseJValF f r4 with
                  | some (v, r5) =>
                      let acc' := dictInsert acc key v
                      let r6 := r5.dropWhile isJsonWs
                      match r6 with
                      | ',' :: r7 => parseJObjMoreF f r7 acc'
                      | '}' :: r7 => some (.dict acc', r7)
                      | _ => none
                  | Option.none => none
              | _ => none
          | Option.none => none
      | _ => none

/-- Array elements after `[`. -/
def parseJArrF : Nat → Str → List PyVal → Option (PyVal × Str)
  | 0, _, _ => none
  | f + 1, l, acc =>
      let l := l.dropWhile isJsonWs
      match l with
      | ']' :: r => if acc.isEmpty then some (.list [], r) else none
      | _ =>
          match parseJValF f l with
          | some (v, r2) =>
              let r3 := r2.dropWhile isJsonWs
              match r3 with
              | ',' :: r4 => parseJArrMoreF f r4 (acc ++ [v])
              | ']' :: r4 => some (.list (acc ++ [v]), r4)
              | _ => none
          | Option.none => none

/-- After a comma inside an array: the next element is mandatory. -/
def parseJArrMoreF : Nat → Str → List PyVal → Option (PyVal × Str)
  | 0, _, _ => none
  | f + 1, l, acc =>
      match parseJValF f l with
      | some (v, r2) =>
          let r3 := r2.dropWhile isJsonWs
          match r3 with
          | ',' :: r4 => parseJArrMoreF f r4 (acc ++ [v])
          | ']' :: r4 => some (.list (acc ++ [v]), r4)
          | _ => none
      | Option.none => none

end

/-- `json.loads`: a full value with only whitespace allowed after it. -/
def jsonLoadsVal (l : Str) : Option PyVal :=
  match parseJValF (l.length * 2 + 8) l with
  | some (v, rest) => if rest.dropWhile isJsonWs = [] then some v else none
  | Option.none => none

/-- `json.loads` restricted to objects (the only case the pipeline can hit:
the parsed span starts with `\x7b`). -/
def jsonLoadsObj (l : Str) : Option (List (Str × PyVal)) :=
  match jsonLoadsVal l with
  | some (.dict kvs) => some kvs
  | _ => none

/-! ## The `rag/schema.py` data model (pydantic v2 semantics) -/

/-- `RegSource = Literal["IFRS", "AAOIFI", "CBB", "InternalPolicy"]`. -/
inductive RegSource where
  | IFRS | AAOIFI | CBB | InternalPolicy
deriving DecidableEq, Repr

/-- `class Quote(BaseModel)`. -/
structure JQuote where
  framework : RegSource
  snippet : Str
  citation : Option Str := none
deriving DecidableEq, Repr

/-- `class PerSourceAnswer(BaseModel)`. -/
structure PerSourceAnswer where
  notes : Option Str := none
  quotes : List JQuote := []
deriving DecidableEq, Repr

/-- `class RegulAIteAnswer(BaseModel)`; `per_source` keeps dict order. -/
structure RegulAIteAnswer where
  raw_markdown : Option Str := none
  summary : Str := []
  per_source : List (RegSource × PerSourceAnswer) := []
  comparative_analysis : Str := []
  recommendation : Str := []
  general_knowledge : Str := []
  gaps_or_next_steps : Str := []
  citations : List Str := []
  ai_opinion : Str := []
  follow_up_suggestions : List Str := []
  comparison_table_md : Option Str := none
deriving DecidableEq, Repr

/-- `DEFAULT_EMPTY = RegulAIteAnswer(raw_markdown="No answer was produced.")`. -/
def DEFAULT_EMPTY : RegulAIteAnswer :=
  { raw_markdown := some (S "No answer was produced.") }

/-- Validate an `Optional[str]` field (pydantic v2: `None`, absent, or a
string; anything else is a validation error). -/
def vOptStr : Option PyVal → Option (Option Str)
  | Option.none => some none
  | some .none => some none
  | some (.str s) => some (some s)
  | some _ => none

/-- Validate a `str` field with a default (pydantic v2 lax mode does not
coerce numbers or booleans to strings). -/
def vStrD (d : Str) : Option PyVal → Option Str
  | Option.none => some d
  | some (.str s) => some s
  | some _ => none

/-- Validate the elements of a `List[str]` field. -/
def vStrElems : List PyVal → Option (List Str)
  | [] => some []
  | .str s :: rest => (vStrElems rest).map (s :: ·)
  | _ :: _ => none

/-- Validate a `List[str]` field (default empty). -/
def vListStr : Option PyVal → Option (List Str)
  | Option.none => some []
  | some (.list xs) => vStrElems xs
  | some _ => none

/-- Validate a `RegSource` literal. -/
def vRegSource (s : Str) : Option RegSource :=
  if s = S "IFRS" then some .IFRS
  else if s = S "AAOIFI" then some .AAOIFI
  else if s = S "CBB" then some .CBB
  else if s = S "InternalPolicy" then some .InternalPolicy
  else none

/-- Validate one `Quote` (framework and snippet required). -/
def vQuote : PyVal → Option JQuote
  | .dict kvs => do
      let fw ← match dictGet kvs (S "framework") with
               | some (.str s) => vRegSource s
               | _ => none
      let sn ← match dictGet kvs (S "snippet") with
               | some (.str s) => some s
               | _ => none
      let ci ← vOptStr (dictGet kvs (S "citation"))
      some { framework := fw, snippet := sn, citation := ci }
  | _ => none

/-- Validate a list of `Quote` payloads. -/
def vQuotes : List PyVal → Option (List JQuote)
  | [] => some []
  | v :: rest => do
      let q ← vQuote v
      let qs ← vQuotes rest
      some (q :: qs)

/-- Validate one `PerSourceAnswer`. -/
def vPSA : PyVal → Option PerSourceAnswer
  | .dict kvs => do
      let no ← vOptStr (dictGet kvs (S "notes"))
      let qs ← match dictGet kvs (S "quotes") with
               | Option.none => some []
               | some (.list xs) => vQuotes xs
               | some _ => none
      some { notes := no, quotes := qs }
  | _ => none

/-- Validate the entries of `per_source`. -/
def vPerSourceEntries : List (Str × PyVal) →
    Option (List (RegSource × PerSourceAnswer))
  | [] => some []
  | kv :: rest => do
      let k ← vRegSource kv.1
      let v ← vPSA kv.2
      let tail ← vPerSourceEntries rest
      some ((k, v) :: tail)

/-- Validate `per_source : Dict[RegSource, PerSourceAnswer]`. -/
def vPerSource : Option PyVal → Option (List (RegSource × PerSourceAnswer))
  | Option.none => some []
  | some (.dict kvs) => vPerSourceEntries kvs
  | some _ => none

/-- `RegulAIteAnswer(**data)` under pydantic v2 (extra keys ignored,
no lax coercions between str and numbers/booleans): `some` a record on
success, `none` for a `ValidationError`. -/
def validateAnswer (kvs : List (Str × PyVal)) : Option RegulAIteAnswer := do
  let rmd ← vOptStr (dictGet kvs (S "raw_markdown"))
  let summ ← vStrD [] (dictGet kvs (S "summary"))
  let per ← vPerSource (dictGet kvs (S "per_source"))
  let ca ← vStrD [] (dictGet kvs (S "comparative_analysis"))
  let rec_ ← vStrD [] (dictGet kvs (S "recommendation"))
  let gk ← vStrD [] (dictGet kvs (S "general_knowledge"))
  let gaps ← vStrD [] (dictGet kvs (S "gaps_or_next_steps"))
  let cits ← vListStr (dictGet kvs (S "citations"))
  let ai ← vStrD [] (dictGet kvs (S "ai_opinion"))
  let fus ← vListStr (dictGet kvs (S "follow_up_suggestions"))
  let ctm ← vOptStr (dictGet kvs (S "comparison_table_md"))
  some { raw_markdown := rmd, summary := summ, per_source := per,
         comparative_analysis := ca, recommendation := rec_,
         general_knowledge := gk, gaps_or_next_steps := gaps,
         citations := cits, ai_opinion := ai,
         follow_up_suggestions := fus, comparison_table_md := ctm }

/-! ## `_unescape_field` and the `_parse_json` recovery chain -/

/-- Python `pat in s` on strings: substring test. -/
def containsSub (pat : Str) : Str → Bool
  | [] => pat.isEmpty
  | l@(_ :: rest) => pat.isPrefixOf l || containsSub pat rest

/-- `_unescape_field` on a string: unescape literal `\n` sequences when the
text has no real newline, then strip code fences and whitespace. -/
def unescapeField (v : Str) : Str :=
  let v := if containsSub (S "\\n") v ∧ ¬ v.contains '\n' then
             replaceAll v (S "\\n") (S "\n")
           else v
  stripCodeFences v

/-- The unescaping applied to the targeted `"raw_markdown"` regex capture:
`val.replace(r"\\n", "\n").replace(r"\\t", "\t").replace(r"\\\"", "\"")`
(the patterns are raw strings: backslash-backslash-n, backslash-backslash-t,
backslash-backslash-backslash-quote). -/
def unescapeCapture (v : Str) : Str :=
  replaceAll (replaceAll (replaceAll v (S "\\\\n") (S "\n")) (S "\\\\t") (S "\t"))
    (S "\\\\\\\"") (S "\"")

/-- After `"raw_markdown"\s*:\s*"` — the greedy capture `(.*)` followed by
`"\s*(,|\})`: the longest prefix of `l` ending right before a quote that is
followed by optional whitespace and a comma or closing brace. -/
def greedyCapture (l : Str) : Option Str :=
  let ok : Nat → Bool := fun k =>
    (l.drop k).head? = some '"' &&
      (match ((l.drop (k + 1)).dropWhile isPySpace).head? with
       | some c => c = ',' || c = '}'
       | Option.none => false)
  match ((List.range l.length).filter ok).getLast? with
  | some k => some (l.take k)
  | Option.none => none

/-- One attempt of the tail of the `"raw_markdown"` regex at a position
right after the literal `"raw_markdown"`. -/
def rawMdAttempt (l : Str) : Option Str :=
  match l.dropWhile isPySpace with
  | ':' :: r =>
      match r.dropWhile isPySpace with
      | '"' :: r2 => greedyCapture r2
      | _ => none
  | _ => none

/-- `re.search(r'"raw_markdown"\s*:\s*"(.*)"\s*(,|\})', raw, re.DOTALL)`:
leftmost occurrence of the key literal at which the rest matches, with the
greedy capture. -/
def findRawMdF : Nat → Str → Option Str
  | 0, _ => none
  | _ + 1, [] => none
  | f + 1, l@(_ :: rest) =>
      if (S "\"raw_markdown\"").isPrefixOf l then
        match rawMdAttempt (l.drop 14) with
        | some v => some v
        | Option.none => findRawMdF f rest
      else findRawMdF f rest

/-- The `"raw_markdown"` regex search with adequate fuel. -/
def findRawMd (l : Str) : Option Str := findRawMdF l.length l

/-- The brace-span recovery of `_parse_json` after fence stripping: strict
`json.loads`, trailing-comma repair, then the targeted `"raw_markdown"`
extraction; `[]` models the empty dict. -/
def parseJsonCore (t : Str) : List (Str × PyVal) :=
  match braceSpan t with
  | Option.none => []
  | some raw =>
      match jsonLoadsObj raw with
      | some kvs => kvs
      | Option.none =>
          let raw2 := subCommaClose ']' (subCommaClose '}' raw)
          match jsonLoadsObj raw2 with
          | some kvs => kvs
          | Option.none =>
              match findRawMd raw with
              | some val => [(S "raw_markdown", .str (unescapeCapture val))]
              | Option.none => []

/-- `_parse_json` of `rag/pipeline.py`: early return on empty text, then
fence-strip and recover from the brace span. -/
def parseJson (text : Str) : List (Str × PyVal) :=
  if text.isEmpty then []
  else parseJsonCore (stripCodeFences text)

/-- The shared recovery after `_parse_json` produced a non-empty dict
(`pipeline.py` lines 181–185, 234–238, 375–379): construct the record; on
a `ValidationError`, rebuild from the dict's `raw_markdown` alone.  The
rebuild itself raises a `ValidationError` — modelled as `.error ()` —
when that value is truthy but not a string. -/
def recoverRecord (data : List (Str × PyVal)) : Except Unit RegulAIteAnswer :=
  match validateAnswer data with
  | some a => .ok a
  | Option.none =>
      let md := match dictGet data (S "raw_markdown") with
                | some v => if pyTruthy v then v else .str []
                | Option.none => .str []
      match md with
      | .str s => .ok { raw_markdown := some (pyOr (unescapeField s) []) }
      | _ => .error ()

/-- The plain-completion normalization (`pipeline.py` lines 373–382):
`_parse_json`, then validation with fallback, else the fence-stripped,
newline-unescaped text as `raw_markdown`. -/
def normalizeChat (text : Str) : Except Unit RegulAIteAnswer :=
  let data := parseJson text
  if data.isEmpty then
    let md := pyStrip (stripCodeFences text)
    .ok { raw_markdown := some (pyOr (unescapeField md) []) }
  else recoverRecord data

/-! ## Mode resolver (`rag/router.py`) and intent detection -/

/-- `normalize_mode` of `rag/router.py`. -/
def normalizeMode (mode_hint : Option Str) : Str :=
  let m0 := match mode_hint with
            | some s => pyOr s (S "auto")
            | Option.none => S "auto"
  let mode := toLowerStr (pyStrip m0)
  if mode = S "short" ∨ mode = S "concise" then S "short"
  else if mode = S "long" ∨ mode = S "detailed" then S "long"
  else if mode = S "research" ∨ mode = S "deep" then S "research"
  else S "auto"

/-- `_mode_tokens` of `rag/pipeline.py`. -/
def modeTokens (mode : Str) : Nat :=
  if mode = S "short" then 900
  else if mode = S "long" then 2600
  else if mode = S "research" then 3600
  else 2200

/-- The result of `_detect_intent`. -/
structure Intent where
  return_only : Bool
  quote_only : Bool
  list_ids : Bool
  bis_only : Bool
  scenario : Bool
  concise : Bool
deriving DecidableEq, Repr

/-- Any of the phrases occurs in the lowered query. -/
def anyPhrase (ql : Str) (ps : List Str) : Bool :=
  ps.any (fun p => containsSub p ql)

/-- `_detect_intent` of `rag/pipeline.py`. -/
def detectIntent (q : Str) : Intent :=
  let ql := toLowerStr q
  let return_only := anyPhrase ql
    [S "return only", S "only:", S "only the", S "just the", S "no other",
     S "nothing else", S "no prose", S "no explanation"]
  let quote_only := anyPhrase ql
    [S "quote", S "quote verbatim", S "verbatim", S "exact sentence",
     S "exact line", S "cite-only", S "cite only"]
  let list_ids := anyPhrase ql
    [S "list only the section ids", S "list only the ids",
     S "section ids present", S "ids present"]
  let bis_only := (containsSub (S "bis.org") ql || containsSub (S "bcbs ") ql)
    && return_only
  let scenario := anyPhrase ql
    [S "scenario", S "deliver:", S "board-ready", S "controls", S "kris",
     S "workflow", S "recommendation", S "decision-grade",
     S "exposure calculation"]
  let concise := return_only || quote_only || list_ids || bis_only
  { return_only := return_only, quote_only := quote_only, list_ids := list_ids,
    bis_only := bis_only, scenario := scenario, concise := concise }

/-- The style instruction chosen at `pipeline.py` lines 269–296. -/
def styleMsgOf (i : Intent) : Str :=
  if i.concise then
    S "Follow any output restriction STRICTLY (e.g., \x27quote verbatim\x27, \x27return only URL/date/code\x27, \x27IDs only\x27). No extra prose, no headings, no boilerplate."
  else if i.scenario then
    S "Board-grade scenario. Use clean headings and tables as needed. Include controls/KRIs/workflow only if requested. Be concise and decision-focused."
  else
    S "Answer naturally in well-structured Markdown. Use headings/tables if helpful. Do NOT add generic workflow/matrix unless the question requires them."

/-- The JSON-schema instruction: skipped (`None`) for concise intent. -/
def schemaMsgOf (i : Intent) : Option Str :=
  if i.concise then none
  else some (S "Return ONE JSON object ONLY with keys: raw_markdown (string), summary (string, optional), per_source (object, optional), comparison_table_md (string, optional), follow_up_suggestions (array of strings, optional). No prose outside JSON.")

/-! ## Conversation brief and web context -/

/-- Join with newlines. -/
def joinNL (ls : List Str) : Str := List.intercalate (S "\n") ls

/-- `_history_to_brief` (`max_pairs = 8`): last 16 turns, role-prefixed,
assistant turns truncated to 700 characters, empty contents skipped. -/
def historyToBrief (history : List (Str × Str)) : Str :=
  if history.isEmpty then []
  else
    let turns := history.drop (history.length - 16)
    let out := turns.filterMap (fun rc =>
      let content := pyStrip rc.2
      if content.isEmpty then none
      else if rc.1 = S "user" then some (S "User: " ++ content)
      else some (S "Assistant: " ++ content.take 700))
    joinNL out

/-- Decimal digits of a natural number (fuel-indexed helper). -/
def natDigitsF : Nat → Nat → Str
  | 0, _ => []
  | f + 1, n =>
      if n < 10 then [Char.ofNat (48 + n)]
      else natDigitsF f (n / 10) ++ [Char.ofNat (48 + n % 10)]

/-- Decimal rendering of a natural number. -/
def natToStr (n : Nat) : Str := natDigitsF (n + 1) n

/-- The web-snippet block built at `pipeline.py` lines 330–338 from the
search results (each `(title, url, snippet)`). -/
def webContext (results : List (Str × Str × Str)) : Str :=
  if results.isEmpty then []
  else
    let header := S "Web snippets (use prudently; internal docs take precedence):"
    let lines := results.enum.map (fun p =>
      natToStr (p.1 + 1) ++ S ". " ++ p.2.1 ++ S " — " ++ p.2.2.1 ++
      S "\n   Snippet: " ++ (pyStrip p.2.2.2).take 400)
    joinNL (header :: lines)

/-! ## Messages sent to the completion backends

The long prose constants (`BASE_RULES`, `STYLE_GUIDE`, `FEW_SHOT_EXAMPLE`)
are instruction payload with no decision logic; messages carry them as
tagged constructors so the message structure (what is included, in which
order) is modelled exactly. -/

/-- One message of the lists built at `pipeline.py` lines 109–118 and
341–352. -/
inductive ChatMsg where
  | sysInstruction (kHint : Nat) (evidenceMode : Bool) (mode : Str)
  | styleGuide
  | fewShot
  | styleMsg (s : Str)
  | schemaMsg (s : Str)
  | brief (s : Str)
  | webSnippets (s : Str)
  | userQuery (s : Str)
deriving DecidableEq, Repr

/-- `list.insert(i, x)` (Python semantics; `i` within range here). -/
def insertAt (i : Nat) (x : ChatMsg) (l : List ChatMsg) : List ChatMsg :=
  l.take i ++ x :: l.drop i

/-- `_responses_build_messages` (file-search path). -/
def fsMessages (kHint : Nat) (ev : Bool) (mode : Str) (styleM : Str)
    (convo : Str) (query : Str) : List ChatMsg :=
  [.sysInstruction kHint ev mode, .styleGuide, .fewShot, .styleMsg styleM,
   .brief convo, .userQuery query]

/-- The chat-completions message list (`pipeline.py` lines 341–352): the
schema message, when present, is inserted at index 3; the web context,
when non-empty, precedes the query. -/
def chatMessages (kHint : Nat) (ev : Bool) (mode : Str) (styleM : Str)
    (schemaM : Option Str) (convo : Str) (webCtx : Str) (query : Str) :
    List ChatMsg :=
  let ms := [ChatMsg.sysInstruction kHint ev mode, .styleGuide,
             .styleMsg styleM, .brief convo]
  let ms := if webCtx.isEmpty then ms else ms ++ [.webSnippets webCtx]
  let ms := ms ++ [.userQuery query]
  match schemaM with
  | some s => insertAt 3 (.schemaMsg s) ms
  | Option.none => ms

/-! ## The Azure AI Foundry agent call (`rag/foundry_client.py`) -/

/-- The observable behaviour of the HTTP world during one
`ask_foundry_agent` call: token acquisition, run creation (ids as the
service returned them plus the raw response rendering), the successive
poll responses (status plus the status object's rendering), and the final
message fetch (the extracted newest assistant text, `none` when no
assistant message exists). -/
structure FoundryWorld where
  tokenResult : Except Str Unit
  createRun : Except Str ((Option Str × Option Str) × Str)
  polls : List (Except Str (Str × Str))
  messagesResult : Except Str (Option Str)

/-- The poll loop of `ask_foundry_agent` (lines 117–132): each list entry
is one poll before the deadline; `completed` breaks, `failed`, `cancelled`
and `expired` raise with the status in the message; exhausting the list
models reaching the deadline. -/
def pollLoop : List (Except Str (Str × Str)) → Option Str →
    Except Str (Option Str)
  | [], last => .ok last
  | r :: rest, _ =>
      match r with
      | .error e => .error e
      | .ok (s, objr) =>
          if s = S "completed" then .ok (some s)
          else if s = S "failed" ∨ s = S "cancelled" ∨ s = S "expired" then
            .error (S "Run ended with status=" ++ s ++ S ": " ++ objr)
          else pollLoop rest (some s)

/-- Python rendering of the last status inside the timeout message. -/
def renderStatus : Option Str → Str
  | some s => s
  | Option.none => S "None"

/-- `ask_foundry_agent` over a `FoundryWorld`: `.error` is a raised
exception carrying its message. -/
def askFoundryAgent (w : FoundryWorld) : Except Str Str :=
  match w.tokenResult with
  | .error e => .error e
  | .ok _ =>
      match w.createRun with
      | .error e => .error e
      | .ok (ids, objr) =>
          if ids.1.isNone ∨ ids.2.isNone then
            .error (S "Unexpected run response (missing ids): " ++ objr)
          else
            match pollLoop w.polls none with
            | .error e => .error e
            | .ok st =>
                if st ≠ some (S "completed") then
                  .error (S "Run timed out after 90.0s (last status=" ++
                          renderStatus st ++ S ")")
                else
                  match w.messagesResult with
                  | .error e => .error e
                  | .ok (some t) => .ok t
                  | .ok Option.none => .ok []

/-! ## The pipeline entry point `ask` (`rag/pipeline.py` lines 190–398) -/

/-- The environment-style configuration `ask` reads (`None` models an
unset variable, `[]` a blank one; `ask` strips before testing). -/
structure Env where
  ai_foundry_project_endpoint : Str := []
  ai_foundry_assistant_id : Str := []
  use_azure_foundry : Option Str := none
  openai_api_key : Str := []
  openai_vector_store_id : Str := []

/-- `foundry_enabled` (`pipeline.py` lines 209–211). -/
def foundryEnabled (env : Env) : Bool :=
  let ep := pyStrip env.ai_foundry_project_endpoint
  let ag := pyStrip env.ai_foundry_assistant_id
  let flag := toLowerStr (pyStrip (env.use_azure_foundry.getD (S "1")))
  !ep.isEmpty && !ag.isEmpty &&
    !(flag = S "0" || flag = S "false" || flag = S "no")

/-- The behaviour of the external collaborators during one call: the
Foundry world as a function of the submitted user text, the Responses
(file-search) call and the chat call as functions of their message lists
(`.error` a raised exception), and the web-search results (`ddg_search`
already catches its own errors and returns a list). -/
structure Oracles where
  foundry : Str → FoundryWorld
  fsCall : List ChatMsg → Except Unit Str
  web : List (Str × Str × Str)
  chat : List ChatMsg → Except Str Str

/-- The record returned when the configured Foundry backend raises
(`pipeline.py` lines 242–244). -/
def errRecordFoundry (e : Str) : RegulAIteAnswer :=
  { raw_markdown :=
      some (S "### Error\nAzure Foundry agent call failed.\n\nDetails: " ++ e) }

/-- The record returned when the chat-completions call raises
(`pipeline.py` lines 366–367). -/
def errRecordChat (e : Str) : RegulAIteAnswer :=
  { raw_markdown := some (S "### Error\nModel call failed.\n\nDetails: " ++ e) }

/-- Stand-in for the text of a pydantic `ValidationError` caught by the
Foundry branch's `except Exception` (its exact rendering is
library-internal; no property here depends on it). -/
def pydanticErrMsg : Str := S "ValidationError"

/-- Normalization on the Foundry path (`pipeline.py` lines 232–240): like
the chat path but the no-JSON fallback unescapes the raw text directly. -/
def normalizeFoundry (raw : Str) : Except Unit RegulAIteAnswer :=
  let data := parseJson raw
  if data.isEmpty then .ok { raw_markdown := some (pyOr (unescapeField raw) []) }
  else recoverRecord data

/-- The six fixed follow-up templates (`pipeline.py` lines 249–256,
311–319, 388–396). -/
def followUpTemplates (query : Str) : List Str :=
  let topic := pyStrip (pyOr query (S "this topic"))
  [S "What approval thresholds and board oversight apply to " ++ topic ++ S "?",
   S "Draft a closure checklist for " ++ topic ++ S " with controls and required evidence.",
   S "What fields belong in the monthly board pack for " ++ topic ++ S "?",
   S "How should breaches/exceptions for " ++ topic ++ S " be escalated and documented?",
   S "What stress-test scenarios are relevant for " ++ topic ++ S " and how to calibrate them?",
   S "What are the key risks, controls, and KRIs for " ++ topic ++ S " (with metrics)?"]

/-- Follow-up synthesis: fill `follow_up_suggestions` when empty. -/
def withFollowUps (query : Str) (a : RegulAIteAnswer) : RegulAIteAnswer :=
  if a.follow_up_suggestions.isEmpty then
    { a with follow_up_suggestions := followUpTemplates query }
  else a

/-- `_responses_try_file_search` (`pipeline.py` lines 120–187): `none`
without a vector store, without a client, on a failed call or an empty
result; otherwise parse/validate.  The `.error` case models the
`ValidationError` the recovery branch itself can raise (lines 184–185,
outside any handler). -/
def fsTryFileSearch (vectorStoreId : Option Str) (hasClient : Bool)
    (call : List ChatMsg → Except Unit Str) (msgs : List ChatMsg) :
    Except Unit (Option RegulAIteAnswer) :=
  match vectorStoreId with
  | Option.none => .ok none
  | some _ =>
      if ¬ hasClient then .ok none
      else
        match call msgs with
        | .error _ => .ok none
        | .ok raw0 =>
            let raw_md := pyStrip raw0
            if raw_md.isEmpty then .ok none
            else
              let data := parseJson raw_md
              if data.isEmpty then
                .ok (some { raw_markdown := some (pyOr (unescapeField raw_md) []) })
              else (recoverRecord data).map some

/-- The chat-completions leg (`pipeline.py` lines 322–398), reached when
the Foundry backend is off and file search produced nothing usable. -/
def chatLeg (env : Env) (o : Oracles) (query : Str) (intent : Intent)
    (kHint : Nat) (ev : Bool) (mode : Str) (convoBrief : Str)
    (web_enabled : Bool) : Except Unit RegulAIteAnswer :=
  let webCtx := if web_enabled ∧ ¬ intent.concise then webContext o.web else []
  let msgs := chatMessages kHint ev mode (styleMsgOf intent)
    (schemaMsgOf intent) convoBrief webCtx query
  let hasClient := !(pyStrip env.openai_api_key).isEmpty
  if ¬ hasClient then .ok DEFAULT_EMPTY
  else
    match o.chat msgs with
    | .error e => .ok (errRecordChat e)
    | .ok text =>
        if intent.concise then
          let raw := pyStrip (stripCodeFences text)
          .ok { raw_markdown := some (if raw.isEmpty then S "not found" else raw),
                follow_up_suggestions := [] }
        else
          match normalizeChat text with
          | .error e => .error e
          | .ok ans =>
              if (pyStrip (ans.raw_markdown.getD [])).isEmpty then .ok DEFAULT_EMPTY
              else .ok (withFollowUps query ans)

/-- The user text submitted to the Foundry agent (`pipeline.py`
lines 217–220). -/
def foundryUserText (query convoBrief : Str) : Str :=
  if ¬ convoBrief.isEmpty then
    S "Conversation brief (most recent first):\n" ++ convoBrief ++
    S "\n\nUser query:\n" ++ query
  else query

/-- The condition under which the shared recovery raises an uncaught
`ValidationError` (see `recoverRecord`): strict validation fails, and the
dict's `raw_markdown` entry is truthy but not a string. -/
def recoverRaises (data : List (Str × PyVal)) : Bool :=
  (validateAnswer data).isNone &&
    (match dictGet data (S "raw_markdown") with
     | some v => pyTruthy v && !(match v with | .str _ => true | _ => false)
     | Option.none => false)

/-- The raise condition lifted to backend text: a non-empty JSON object is
recovered from it and `recoverRaises` holds. -/
def raisesOnText (t : Str) : Bool :=
  !(parseJson t).isEmpty && recoverRaises (parseJson t)

/-- The pipeline entry point `ask`.  The outer `Except Unit` models an
exception escaping to the caller: `.error ()` is a raise, `.ok r` a
returned `RegulAIteAnswer`. -/
def ask (env : Env) (o : Oracles) (query : Str) (history : List (Str × Str))
    (kHint : Nat) (ev : Bool) (mode_hint : Option Str) (web_enabled : Bool)
    (vec_id : Option Str) : Except Unit RegulAIteAnswer :=
  let mode := normalizeMode mode_hint
  let convoBrief := historyToBrief history
  if foundryEnabled env then
    let userText := foundryUserText query convoBrief
    match askFoundryAgent (o.foundry userText) with
    | .error e => .ok (errRecordFoundry e)
    | .ok raw_md =>
        if raw_md.isEmpty then .ok DEFAULT_EMPTY
        else
          match normalizeFoundry raw_md with
          | .error _ => .ok (errRecordFoundry pydanticErrMsg)
          | .ok ans => .ok (withFollowUps query ans)
  else
    let vs0 := pyStrip (pyOr (vec_id.getD []) env.openai_vector_store_id)
    let vectorStoreId := if vs0.isEmpty then none else some vs0
    let intent := detectIntent query
    let hasClient := !(pyStrip env.openai_api_key).isEmpty
    let fsMsgs := fsMessages kHint ev mode (styleMsgOf intent) convoBrief query
    match fsTryFileSearch vectorStoreId hasClient o.fsCall fsMsgs with
    | .error e => .error e
    | .ok (some ansFs) =>
        if ¬ (pyStrip (ansFs.raw_markdown.getD [])).isEmpty then
          .ok (withFollowUps query ansFs)
        else chatLeg env o query intent kHint ev mode convoBrief web_enabled
    | .ok Option.none =>
        chatLeg env o query intent kHint ev mode convoBrief web_enabled

/-! ## Shared lemmas about the string model -/

theorem prefix_head?_eq {x y : Str} (h : x <+: y) (hx : x ≠ []) :
    y.head? = x.head? := by
  obtain ⟨t, rfl⟩ := h
  cases x with
  | nil => exact absurd rfl hx
  | cons a l => simp

theorem dropWhile_eq_self_of_head {p : Char → Bool} {l : Str}
    (h : ∀ c ∈ l.head?, p c = false) : l.dropWhile p = l := by
  cases l with
  | nil => rfl
  | cons a t =>
      have := h a (by simp)
      simp [List.dropWhile_cons, this]

theorem head?_dropWhile_false {p : Char → Bool} (l : Str) :
    ∀ c ∈ (l.dropWhile p).head?, p c = false := by
  induction l with
  | nil => simp
  | cons a t ih =>
      intro c hc
      by_cases hp : p a = true
      · rw [List.dropWhile_cons, if_pos hp] at hc
        exact ih c hc
      · rw [List.dropWhile_cons, if_neg hp] at hc
        simp only [List.head?_cons, Option.mem_def, Option.some_inj] at hc
        subst hc
        simpa using hp

theorem pyStrip_eq_self {l : Str}
    (h1 : ∀ c ∈ l.head?, isPySpace c = false)
    (h2 : ∀ c ∈ l.getLast?, isPySpace c = false) : pyStrip l = l := by
  unfold pyStrip
  rw [dropWhile_eq_self_of_head h1]
  rw [List.rdropWhile_eq_self_iff]
  intro hl
  have := h2 (l.getLast hl)
    (by rw [Option.mem_def, List.getLast?_eq_getLast _ hl])
  simp [this]

theorem pyStrip_idem (l : Str) : pyStrip (pyStrip l) = pyStrip l := by
  unfold pyStrip
  have hdrop : ((l.dropWhile isPySpace).rdropWhile isPySpace).dropWhile isPySpace
      = (l.dropWhile isPySpace).rdropWhile isPySpace := by
    apply dropWhile_eq_self_of_head
    intro c hc
    have hpre : (l.dropWhile isPySpace).rdropWhile isPySpace
        <+: l.dropWhile isPySpace := List.rdropWhile_prefix _ _
    have hne : (l.dropWhile isPySpace).rdropWhile isPySpace ≠ [] := by
      intro h
      rw [h] at hc
      simp at hc
    have hh : (l.dropWhile isPySpace).head?
        = ((l.dropWhile isPySpace).rdropWhile isPySpace).head? :=
      prefix_head?_eq hpre hne
    exact head?_dropWhile_false l c (by rw [hh]; exact hc)
  rw [hdrop, List.rdropWhile_idempotent]

theorem dropWhile_all_append {p : Char → Bool} {a : Str} (b : Str)
    (ha : ∀ c ∈ a, p c = true) :
    (a ++ b).dropWhile p = b.dropWhile p := by
  induction a with
  | nil => simp
  | cons x t ih =>
      have hx := ha x (by simp)
      simp only [List.cons_append, List.dropWhile_cons, hx, if_true]
      exact ih (fun c hc => ha c (by simp [hc]))

theorem stripCodeFences_eq_pyStrip {t : Str}
    (h : (S "```").isPrefixOf (pyStrip t) = false) :
    stripCodeFences t = pyStrip t := by
  unfold stripCodeFences
  simp [h]

theorem braceSpan_full {t : Str} (hh : t.head? = some '{')
    (hl : t.getLast? = some '}') (h2 : 2 ≤ t.length) :
    braceSpan t = some t := by
  have hfirst : t.findIdx? (· = '{') = some 0 := by
    cases t with
    | nil => simp at hh
    | cons a l =>
        simp only [List.head?_cons, Option.some_inj] at hh
        subst hh
        rw [List.findIdx?_cons]
        simp
  have hrev : t.reverse.findIdx? (· = '}') = some 0 := by
    have : t.reverse.head? = some '}' := by rw [List.head?_reverse]; exact hl
    cases hr : t.reverse with
    | nil => rw [hr] at this; simp at this
    | cons a l =>
        rw [hr] at this
        simp only [List.head?_cons, Option.some_inj] at this
        subst this
        rw [List.findIdx?_cons]
        simp
  have hlastidx : findLastIdx '}' t = some (t.length - 1) := by
    unfold findLastIdx
    rw [hrev]
    simp
  unfold braceSpan
  rw [hfirst, hlastidx]
  simp only []
  have hpos : (0 : Nat) < t.length - 1 := by omega
  rw [if_pos hpos]
  have harith : t.length - 1 - 0 + 1 = t.length := by omega
  rw [List.drop_zero, harith, List.take_length]

theorem parseJson_eq_core (t : Str) :
    parseJson t = parseJsonCore (stripCodeFences t) := by
  by_cases h : t.isEmpty
  · have : t = [] := by cases t <;> simp_all
    subst this
    rfl
  · unfold parseJson
    rw [if_neg h]

theorem normalizeChat_congr {x y : Str}
    (h : stripCodeFences x = stripCodeFences y) :
    normalizeChat x = normalizeChat y := by
  unfold normalizeChat
  rw [parseJson_eq_core, parseJson_eq_core, h]

theorem stripCodeFences_wrap (tag t : Str)
    (htag : ∀ c ∈ tag, isFenceTagChar c = true) :
    stripCodeFences (S "```" ++ tag ++ ['\n'] ++ t ++ ['\n'] ++ S "```")
      = pyStrip t := by
  have hS : S "```" = ['`', '`', '`'] := rfl
  have hw : S "```" ++ tag ++ ['\n'] ++ t ++ ['\n'] ++ S "```"
      = '`' :: '`' :: '`' :: (tag ++ '\n' :: (t ++ '\n' :: ['`', '`', '`'])) := by
    rw [hS]
    simp [List.append_assoc]
  rw [hw]
  have hhead : ∀ c ∈ (('`' : Char) :: '`' :: '`' ::
      (tag ++ '\n' :: (t ++ '\n' :: ['`', '`', '`']))).head?,
      isPySpace c = false := by
    intro c hc
    simp only [List.head?_cons, Option.mem_def, Option.some_inj] at hc
    subst hc
    rfl
  have hlast : ∀ c ∈ (('`' : Char) :: '`' :: '`' ::
      (tag ++ '\n' :: (t ++ '\n' :: ['`', '`', '`']))).getLast?,
      isPySpace c = false := by
    intro c hc
    have h1 : (('`' : Char) :: '`' :: '`' ::
        (tag ++ '\n' :: (t ++ '\n' :: ['`', '`', '`'])))
        = ('`' :: '`' :: '`' :: (tag ++ '\n' :: (t ++ ['\n', '`', '`'])))
          ++ ['`'] := by
      simp
    rw [h1, List.getLast?_concat] at hc
    simp only [Option.mem_def, Option.some_inj] at hc
    subst hc
    rfl
  unfold stripCodeFences
  rw [pyStrip_eq_self hhead hlast]
  have hpre : (S "```").isPrefixOf ('`' :: '`' :: '`' ::
      (tag ++ '\n' :: (t ++ '\n' :: ['`', '`', '`']))) = true := by
    rw [ List.isPrefixOf_iff_prefix, hS]
    exact ⟨_, rfl⟩
  rw [if_pos hpre]
  have hdrop3 : (('`' : Char) :: '`' :: '`' ::
      (tag ++ '\n' :: (t ++ '\n' :: ['`', '`', '`']))).drop 3
      = tag ++ '\n' :: (t ++ '\n' :: ['`', '`', '`']) := rfl
  rw [hdrop3]
  rw [dropWhile_all_append _ htag]
  have hnl : isFenceTagChar '\n' = false := rfl
  rw [List.dropWhile_cons, hnl]
  simp only [Bool.false_eq_true, if_false]
  have hnlws : isPySpace '\n' = true := rfl
  rw [List.dropWhile_cons, hnlws, if_pos rfl]
  by_cases hdt : (t.dropWhile isPySpace).isEmpty
  · have hdnil : t.dropWhile isPySpace = [] := by
      cases h : t.dropWhile isPySpace <;> simp_all
    have : (t ++ '\n' :: ['`', '`', '`']).dropWhile isPySpace
        = ['`', '`', '`'] := by
      rw [List.dropWhile_append, hdnil]
      simp only [List.isEmpty_nil, if_true]
      rw [List.dropWhile_cons, hnlws, if_pos rfl]
      rfl
    rw [this]
    have hsuf : (S "```").isSuffixOf (['`', '`', '`'] : Str) = true := by
      rw [List.isSuffixOf_iff_suffix, hS]
    rw [if_pos hsuf]
    have : dropLastN 3 (['`', '`', '`'] : Str) = [] := rfl
    rw [this]
    simp only [List.rdropWhile_nil]
    unfold pyStrip
    rw [hdnil]
    simp [List.rdropWhile_nil]
  · have hdne : ¬ (t.dropWhile isPySpace).isEmpty = true := hdt
    have hsplit : (t ++ '\n' :: ['`', '`', '`']).dropWhile isPySpace
        = t.dropWhile isPySpace ++ '\n' :: ['`', '`', '`'] := by
      rw [List.dropWhile_append]
      simp [hdne]
    rw [hsplit]
    set d := t.dropWhile isPySpace with hd
    have hform : d ++ '\n' :: ['`', '`', '`']
        = (d ++ ['\n']) ++ ['`', '`', '`'] := by simp
    have hsuf : (S "```").isSuffixOf (d ++ '\n' :: ['`', '`', '`']) = true := by
      rw [List.isSuffixOf_iff_suffix, hS, hform]
      exact List.suffix_append _ _
    rw [if_pos hsuf]
    have hlen : dropLastN 3 (d ++ '\n' :: ['`', '`', '`']) = d ++ ['\n'] := by
      unfold dropLastN
      rw [hform]
      have h1 : (d ++ ['\n'] ++ ['`', '`', '`'] : Str).length - 3
          = (d ++ ['\n']).length + 0 := by
        simp
      rw [h1, List.take_append]
      simp
    rw [hlen]
    have hr : (d ++ ['\n']).rdropWhile isPySpace = d.rdropWhile isPySpace :=
      List.rdropWhile_concat_pos _ _ _ hnlws
    rw [hr]
    have : d.rdropWhile isPySpace = pyStrip t := by rw [hd]; rfl
    rw [this, pyStrip_idem]

theorem validateAnswer_proj {kvs : List (Str × PyVal)} {r : RegulAIteAnswer}
    (h : validateAnswer kvs = some r) :
    vOptStr (dictGet kvs (S "raw_markdown")) = some r.raw_markdown ∧
    vStrD [] (dictGet kvs (S "summary")) = some r.summary ∧
    vListStr (dictGet kvs (S "follow_up_suggestions"))
      = some r.follow_up_suggestions := by
  unfold validateAnswer at h
  simp only [bind, Option.bind_eq_some] at h
  obtain ⟨rmd, h1, h⟩ := h
  obtain ⟨summ, h2, h⟩ := h
  obtain ⟨per, h3, h⟩ := h
  obtain ⟨ca, h4, h⟩ := h
  obtain ⟨rec_, h5, h⟩ := h
  obtain ⟨gk, h6, h⟩ := h
  obtain ⟨gaps, h7, h⟩ := h
  obtain ⟨cits, h8, h⟩ := h
  obtain ⟨ai, h9, h⟩ := h
  obtain ⟨fus, h10, h⟩ := h
  obtain ⟨ctm, h11, h⟩ := h
  simp only [Option.some_inj] at h
  subst h
  exact ⟨h1, h2, h10⟩

theorem vStrElems_map_str (xs : List Str) :
    vStrElems (xs.map PyVal.str) = some xs := by
  induction xs with
  | nil => rfl
  | cons a l ih => simp [vStrElems, ih]

theorem vListStr_map_str (xs : List Str) :
    vListStr (some (.list (xs.map PyVal.str))) = some xs := by
  unfold vListStr
  exact vStrElems_map_str xs

/-- C4 (corrected: the round-trip needs a non-empty JSON object — see the
counterexample): for text that is exactly a valid JSON object with at
least one key and validates against the schema, normalization returns
exactly the validated record, whose fields equal the decoded values. -/
theorem C4_json_round_trip (t : Str) (j : List (Str × PyVal))
    (r : RegulAIteAnswer) (hne : j ≠ [])
    (hh : t.head? = some '{') (hl : t.getLast? = some '}')
    (hstrip : pyStrip t = t)
    (hparse : jsonLoadsObj t = some j)
    (hval : validateAnswer j = some r) :
    normalizeChat t = .ok r ∧
    (∀ s, dictGet j (S "raw_markdown") = some (.str s) →
      r.raw_markdown = some s) ∧
    (∀ s, dictGet j (S "summary") = some (.str s) → r.summary = s) ∧
    (∀ xs, dictGet j (S "follow_up_suggestions")
        = some (.list (xs.map PyVal.str)) → r.follow_up_suggestions = xs) := by
  obtain ⟨tl, rfl⟩ : ∃ tl, t = '{' :: tl := by
    cases t with
    | nil => simp at hh
    | cons a l =>
        simp only [List.head?_cons, Option.some_inj] at hh
        exact ⟨l, by rw [hh]⟩
  have hnf : (S "```").isPrefixOf (pyStrip ('{' :: tl)) = false := by
    rw [hstrip]
    simp [List.isPrefixOf, S]
  have hlen : 2 ≤ ('{' :: tl : Str).length := by
    cases tl with
    | nil => simp at hl
    | cons b l2 => simp
  have hsf : stripCodeFences ('{' :: tl) = '{' :: tl := by
    rw [stripCodeFences_eq_pyStrip hnf, hstrip]
  have hpj : parseJson ('{' :: tl) = j := by
    rw [parseJson_eq_core, hsf]
    unfold parseJsonCore
    rw [braceSpan_full hh hl hlen]
    simp only [hparse]
  have hje : (j.isEmpty) = false := by cases j <;> simp_all
  have hmain : normalizeChat ('{' :: tl) = .ok r := by
    unfold normalizeChat
    simp only [hpj, hje, Bool.false_eq_true, if_false]
    unfold recoverRecord
    rw [hval]
  obtain ⟨p1, p2, p3⟩ := validateAnswer_proj hval
  refine ⟨hmain, ?_, ?_, ?_⟩
  · intro s hs
    rw [hs] at p1
    simp only [vOptStr, Option.some_inj] at p1
    exact p1.symm
  · intro s hs
    rw [hs] at p2
    simp only [vStrD, Option.some_inj] at p2
    exact p2.symm
  · intro xs hxs
    rw [hxs] at p3
    rw [vListStr_map_str] at p3
    simp only [Option.some_inj] at p3
    exact p3.symm

/-- C4 witness: a concrete two-key object round-trips. -/
theorem C4_json_round_trip_witness :
    normalizeChat (S "\x7b\"raw_markdown\": \"Hello\", \"summary\": \"hi\"\x7d")
      = .ok { raw_markdown := some (S "Hello"), summary := S "hi" } :=
  (C4_json_round_trip
    (S "\x7b\"raw_markdown\": \"Hello\", \"summary\": \"hi\"\x7d")
    [(S "raw_markdown", .str (S "Hello")), (S "summary", .str (S "hi"))]
    { raw_markdown := some (S "Hello"), summary := S "hi" }
    (by simp) rfl rfl rfl rfl rfl).1

/-- C4 counterexample: `"\x7b\x7d"` is a valid JSON object conforming to the
schema (every field optional), but normalization does not round-trip it —
the empty recovered dict is falsy, so the whole text becomes
`raw_markdown` instead of the validated all-default record. -/
theorem C4_json_round_trip_counterexample :
    jsonLoadsObj (S "\x7b\x7d") = some [] ∧
    validateAnswer [] = some ({} : RegulAIteAnswer) ∧
    normalizeChat (S "\x7b\x7d")
      = .ok { raw_markdown := some (S "\x7b\x7d") } ∧
    ({} : RegulAIteAnswer).raw_markdown ≠ some (S "\x7b\x7d") := by
  refine ⟨rfl, rfl, rfl, ?_⟩
  simp [S]

/-- C7 (corrected: requires that the unwrapped text is not itself fenced —
see the counterexample): wrapping a text in a triple-backtick fence, with
or without a language tag, does not change its normalization. -/
theorem C7_fence_wrap_normalize_eq (t tag : Str)
    (htag : ∀ c ∈ tag, isFenceTagChar c = true)
    (hnf : (S "```").isPrefixOf (pyStrip t) = false) :
    normalizeChat (S "```" ++ tag ++ ['\n'] ++ t ++ ['\n'] ++ S "```")
      = normalizeChat t := by
  apply normalizeChat_congr
  rw [stripCodeFences_wrap tag t htag, stripCodeFences_eq_pyStrip hnf]

/-- C7 witness: the spec's own example, fenced with a `json` tag. -/
theorem C7_fence_wrap_witness :
    normalizeChat (S "```" ++ S "json" ++ ['\n'] ++
        S "\x7b\"raw_markdown\": \"Hello\", \"follow_up_suggestions\": []\x7d" ++
        ['\n'] ++ S "```")
      = normalizeChat
          (S "\x7b\"raw_markdown\": \"Hello\", \"follow_up_suggestions\": []\x7d")
    ∧ normalizeChat
          (S "\x7b\"raw_markdown\": \"Hello\", \"follow_up_suggestions\": []\x7d")
        = .ok { raw_markdown := some (S "Hello") } :=
  ⟨C7_fence_wrap_normalize_eq _ _ (by decide) (by decide), rfl⟩

/-- C7 counterexample: for a text that itself starts with a fence and
contains escaped newlines, wrapping changes the result — the unwrapped
text is newline-unescaped, the wrapped one is not. -/
theorem C7_fence_wrap_counterexample :
    S "```json\n```x\nA\\nB```\n```"
      = S "```" ++ S "json" ++ ['\n'] ++ S "```x\nA\\nB```" ++ ['\n'] ++ S "```" ∧
    normalizeChat (S "```json\n```x\nA\\nB```\n```")
      = .ok { raw_markdown := some (S "A\\nB") } ∧
    normalizeChat (S "```x\nA\\nB```")
      = .ok { raw_markdown := some (S "A\nB") } ∧
    ({ raw_markdown := some (S "A\\nB") } : RegulAIteAnswer)
      ≠ { raw_markdown := some (S "A\nB") } := by
  refine ⟨rfl, rfl, rfl, ?_⟩
  simp [S]

/-- C9 (confirmed): when no JSON object is recoverable, normalization
never raises and returns the fence-stripped, newline-unescaped, trimmed
input as `raw_markdown` (the empty string for empty input). -/
theorem C9_no_json_fallback (t : Str) (h : parseJson t = []) :
    normalizeChat t =
      .ok { raw_markdown :=
              some (pyOr (unescapeField (pyStrip (stripCodeFences t))) []) } ∧
    (t = [] → normalizeChat t = .ok { raw_markdown := some [] }) := by
  have hmain : normalizeChat t =
      .ok { raw_markdown :=
              some (pyOr (unescapeField (pyStrip (stripCodeFences t))) []) } := by
    unfold normalizeChat
    rw [h]
    rfl
  exact ⟨hmain, fun ht => by subst ht; exact hmain⟩

/-- C9 witness: plain prose input comes back trimmed, without raising. -/
theorem C9_no_json_fallback_witness :
    normalizeChat (S "  plain prose, no braces  ")
      = .ok { raw_markdown := some (S "plain prose, no braces") } :=
  ((C9_no_json_fallback (S "  plain prose, no braces  ") rfl).1).trans rfl

/-- C10 (confirmed): on the plain-completion path, a strict query whose
reply strips to nothing yields `raw_markdown = "not found"`, not the
sentinel record. -/
theorem C10_strict_empty_not_found (env : Env) (o : Oracles) (q : Str)
    (hist : List (Str × Str)) (kHint : Nat) (ev : Bool) (mh : Option Str)
    (we : Bool) (vid : Option Str) (text : Str)
    (hfe : foundryEnabled env = false)
    (hvs : pyStrip (pyOr (vid.getD []) env.openai_vector_store_id) = [])
    (hkey : (pyStrip env.openai_api_key).isEmpty = false)
    (hcon : (detectIntent q).concise = true)
    (hchat : ∀ ms, o.chat ms = .ok text)
    (hstr : pyStrip (stripCodeFences text) = []) :
    ask env o q hist kHint ev mh we vid =
      .ok { raw_markdown := some (S "not found"), follow_up_suggestions := [] } ∧
    S "not found" ≠ DEFAULT_EMPTY.raw_markdown.getD [] := by
  constructor
  · unfold ask
    simp only [hfe, Bool.false_eq_true, if_false, hvs, List.isEmpty_nil,
      if_true]
    simp only [fsTryFileSearch]
    unfold chatLeg
    simp only [hkey, Bool.not_eq_true, Bool.not_false, if_false, hchat]
    simp only [hcon, if_true, hstr, List.isEmpty_nil]
    simp
  · simp [S, DEFAULT_EMPTY]

/-- C10 witness: strict query, backend reply an empty fence. -/
theorem C10_strict_empty_not_found_witness :
    ask { openai_api_key := S "k" }
        { foundry := fun _ => ⟨.ok (), .error [], [], .error []⟩,
          fsCall := fun _ => .error (),
          web := [],
          chat := fun _ => .ok (S "```\n```") }
        (S "return only the section id, nothing else") [] 12 true none true none
      = .ok { raw_markdown := some (S "not found"),
              follow_up_suggestions := [] } :=
  (C10_strict_empty_not_found { openai_api_key := S "k" }
    { foundry := fun _ => ⟨.ok (), .error [], [], .error []⟩,
      fsCall := fun _ => .error (), web := [],
      chat := fun _ => .ok (S "```\n```") }
    (S "return only the section id, nothing else") [] 12 true none true none
    (S "```\n```") rfl rfl rfl rfl (fun _ => rfl) rfl).1

/-- C5 (confirmed): a strict/concise query skips the JSON-schema
instruction, skips web augmentation, and on the plain-completion path
returns the fence-stripped reply with no synthesized follow-ups. -/
theorem C5_strict_plain_text (env : Env) (o : Oracles) (q : Str)
    (hist : List (Str × Str)) (kHint : Nat) (ev : Bool) (mh : Option Str)
    (we : Bool) (vid : Option Str) (text : Str)
    (hfe : foundryEnabled env = false)
    (hvs : pyStrip (pyOr (vid.getD []) env.openai_vector_store_id) = [])
    (hkey : (pyStrip env.openai_api_key).isEmpty = false)
    (hcon : (detectIntent q).concise = true)
    (hchat : ∀ ms, o.chat ms = .ok text)
    (hne : (pyStrip (stripCodeFences text)).isEmpty = false) :
    ask env o q hist kHint ev mh we vid =
      .ok { raw_markdown := some (pyStrip (stripCodeFences text)),
            follow_up_suggestions := [] } ∧
    schemaMsgOf (detectIntent q) = none ∧
    (if we ∧ ¬ (detectIntent q).concise then webContext o.web else []) = [] ∧
    (∀ s, ChatMsg.schemaMsg s ∉ chatMessages kHint ev (normalizeMode mh)
        (styleMsgOf (detectIntent q)) (schemaMsgOf (detectIntent q))
        (historyToBrief hist) [] q) ∧
    (∀ s, ChatMsg.webSnippets s ∉ chatMessages kHint ev (normalizeMode mh)
        (styleMsgOf (detectIntent q)) (schemaMsgOf (detectIntent q))
        (historyToBrief hist) [] q) := by
  have hschema : schemaMsgOf (detectIntent q) = none := by
    unfold schemaMsgOf
    rw [if_pos hcon]
  refine ⟨?_, hschema, ?_, ?_, ?_⟩
  · unfold ask
    simp only [hfe, Bool.false_eq_true, if_false, hvs, List.isEmpty_nil,
      if_true]
    simp only [fsTryFileSearch]
    unfold chatLeg
    simp only [hkey, Bool.not_eq_true, Bool.not_false, if_false, hchat]
    simp only [hcon, if_true]
    have : ((pyStrip (stripCodeFences text)).isEmpty = true) = False := by
      simp [hne]
    simp [this, hne]
  · simp [hcon]
  · intro s
    simp [chatMessages, hschema]
  · intro s
    simp [chatMessages, hschema]

/-- C5 witness: the spec's example — strict query, plain reply `CM-5.2`. -/
theorem C5_strict_plain_text_witness :
    ask { openai_api_key := S "k" }
        { foundry := fun _ => ⟨.ok (), .error [], [], .error []⟩,
          fsCall := fun _ => .error (),
          web := [],
          chat := fun _ => .ok (S "CM-5.2") }
        (S "return only the section id, nothing else") [] 12 true none true none
      = .ok { raw_markdown := some (S "CM-5.2"),
              follow_up_suggestions := [] } :=
  ((C5_strict_plain_text { openai_api_key := S "k" }
    { foundry := fun _ => ⟨.ok (), .error [], [], .error []⟩,
      fsCall := fun _ => .error (), web := [],
      chat := fun _ => .ok (S "CM-5.2") }
    (S "return only the section id, nothing else") [] 12 true none true none
    (S "CM-5.2") rfl rfl rfl rfl (fun _ => rfl) rfl).1).trans rfl

theorem pollLoop_reaches_bad (s objr : Str)
    (hs : s = S "failed" ∨ s = S "cancelled" ∨ s = S "expired") :
    ∀ (pre : List (Str × Str)) (rest : List (Except Str (Str × Str)))
      (last : Option Str),
      (∀ x ∈ pre, x.1 ≠ S "completed" ∧ x.1 ≠ S "failed" ∧
        x.1 ≠ S "cancelled" ∧ x.1 ≠ S "expired") →
      pollLoop (pre.map .ok ++ .ok (s, objr) :: rest) last
        = .error (S "Run ended with status=" ++ s ++ S ": " ++ objr) := by
  intro pre
  induction pre with
  | nil =>
      intro rest last _
      have hnc : ¬ s = S "completed" := by
        rcases hs with h | h | h <;> subst h <;> simp [S]
      simp only [List.map_nil, List.nil_append, pollLoop]
      rw [if_neg hnc, if_pos hs]
  | cons x pre' ih =>
      intro rest last hpre
      obtain ⟨h1, h2, h3, h4⟩ := hpre x (by simp)
      obtain ⟨x1, x2⟩ := x
      simp only [List.map_cons, List.cons_append, pollLoop]
      rw [if_neg h1, if_neg (by tauto)]
      exact ih rest (some x1) (fun y hy => hpre y (by simp [hy]))

/-- C2 (confirmed): once the Foundry backend is configured, any raise of
its call — a poll reaching `failed`/`cancelled`/`expired`, or a timeout —
surfaces directly as an error record (independent of every other backend),
whose markdown starts with the error heading and carries the run's last
known status in the details. -/
theorem C2_foundry_exclusive_error (env : Env) (o : Oracles) (q : Str)
    (hist : List (Str × Str)) (kHint : Nat) (ev : Bool) (mh : Option Str)
    (we : Bool) (vid : Option Str)
    (hfe : foundryEnabled env = true) :
    (∀ e, askFoundryAgent (o.foundry (foundryUserText q (historyToBrief hist)))
        = .error e →
      ask env o q hist kHint ev mh we vid = .ok (errRecordFoundry e) ∧
      (S "### Error").isPrefixOf ((errRecordFoundry e).raw_markdown.getD [])
        = true ∧
      e <:+ (errRecordFoundry e).raw_markdown.getD []) ∧
    (∀ (w : FoundryWorld) (pre : List (Str × Str)) (s objr : Str)
        (rest : List (Except Str (Str × Str))) (tid rid objr2 : Str),
      (∀ x ∈ pre, x.1 ≠ S "completed" ∧ x.1 ≠ S "failed" ∧
        x.1 ≠ S "cancelled" ∧ x.1 ≠ S "expired") →
      (s = S "failed" ∨ s = S "cancelled" ∨ s = S "expired") →
      w.tokenResult = .ok () →
      w.createRun = .ok ((some tid, some rid), objr2) →
      w.polls = pre.map .ok ++ .ok (s, objr) :: rest →
      askFoundryAgent w
        = .error (S "Run ended with status=" ++ s ++ S ": " ++ objr) ∧
      s <:+: S "Run ended with status=" ++ s ++ S ": " ++ objr) ∧
    (∀ (w : FoundryWorld) (st : Option Str) (tid rid objr2 : Str),
      w.tokenResult = .ok () →
      w.createRun = .ok ((some tid, some rid), objr2) →
      pollLoop w.polls none = .ok st →
      st ≠ some (S "completed") →
      askFoundryAgent w
        = .error (S "Run timed out after 90.0s (last status=" ++
            renderStatus st ++ S ")") ∧
      renderStatus st <:+: S "Run timed out after 90.0s (last status=" ++
        renderStatus st ++ S ")") := by
  refine ⟨?_, ?_, ?_⟩
  · intro e he
    refine ⟨?_, rfl, ⟨_, rfl⟩⟩
    unfold ask
    simp only [hfe, if_true, he]
  · intro w pre s objr rest tid rid objr2 hpre hs htok hcr hpolls
    constructor
    · simp only [askFoundryAgent, htok, hcr, hpolls, Option.isNone_some,
        Bool.false_eq_true, or_self, if_false]
      rw [pollLoop_reaches_bad s objr hs pre rest none hpre]
    · exact ⟨S "Run ended with status=", S ": " ++ objr, by simp⟩
  · intro w st tid rid objr2 htok hcr hpoll hne
    constructor
    · simp only [askFoundryAgent, htok, hcr, hpoll, Option.isNone_some,
        Bool.false_eq_true, or_self, if_false]
      rw [if_pos hne]
    · exact ⟨S "Run timed out after 90.0s (last status=", S ")", by simp⟩

/-- C2 witness: a `failed` run after one `in_progress` poll produces the
error record with the status in the details, regardless of the other
backends being available. -/
theorem C2_foundry_exclusive_error_witness :
    ask { ai_foundry_project_endpoint := S "https://ep",
          ai_foundry_assistant_id := S "aid" }
        { foundry := fun _ =>
            ⟨.ok (), .ok ((some (S "t1"), some (S "r1")), S "resp"),
             [.ok (S "in_progress", S "obj0"), .ok (S "failed", S "obj1")],
             .ok (some (S "unused"))⟩,
          fsCall := fun _ => .ok (S "file search answer"),
          web := [],
          chat := fun _ => .ok (S "chat answer") }
        (S "q") [] 12 true none true none
      = .ok (errRecordFoundry (S "Run ended with status=failed: obj1")) ∧
    (S "failed") <:+: S "Run ended with status=failed: obj1" := by
  constructor
  · exact ((C2_foundry_exclusive_error
      { ai_foundry_project_endpoint := S "https://ep",
        ai_foundry_assistant_id := S "aid" }
      { foundry := fun _ =>
          ⟨.ok (), .ok ((some (S "t1"), some (S "r1")), S "resp"),
           [.ok (S "in_progress", S "obj0"), .ok (S "failed", S "obj1")],
           .ok (some (S "unused"))⟩,
        fsCall := fun _ => .ok (S "file search answer"),
        web := [],
        chat := fun _ => .ok (S "chat answer") }
      (S "q") [] 12 true none true none rfl).1
      (S "Run ended with status=failed: obj1") rfl).1
  · exact ⟨S "Run ended with status=", S ": obj1", rfl⟩

/-- C3 (corrected: an empty managed-agent result returns the sentinel
immediately instead of falling through — see the counterexample): the
file-search backend does fall through to plain completion on an empty or
unusable result, and with all three backends unconfigured `ask` returns
the sentinel record. -/
theorem C3_fallthrough_and_sentinel (env : Env) (o : Oracles) (q : Str)
    (hist : List (Str × Str)) (kHint : Nat) (ev : Bool) (mh : Option Str)
    (we : Bool) (vid : Option Str) :
    (foundryEnabled env = true →
      askFoundryAgent (o.foundry (foundryUserText q (historyToBrief hist)))
        = .ok [] →
      ask env o q hist kHint ev mh we vid = .ok DEFAULT_EMPTY) ∧
    (foundryEnabled env = false →
      fsTryFileSearch
          (if (pyStrip (pyOr (vid.getD []) env.openai_vector_store_id)).isEmpty
           then none
           else some (pyStrip (pyOr (vid.getD []) env.openai_vector_store_id)))
          (!(pyStrip env.openai_api_key).isEmpty) o.fsCall
          (fsMessages kHint ev (normalizeMode mh)
            (styleMsgOf (detectIntent q)) (historyToBrief hist) q)
        = .ok none →
      ask env o q hist kHint ev mh we vid
        = chatLeg env o q (detectIntent q) kHint ev (normalizeMode mh)
            (historyToBrief hist) we) ∧
    (foundryEnabled env = false →
      pyStrip (pyOr (vid.getD []) env.openai_vector_store_id) = [] →
      (pyStrip env.openai_api_key).isEmpty = true →
      ask env o q hist kHint ev mh we vid = .ok DEFAULT_EMPTY) ∧
    DEFAULT_EMPTY.raw_markdown = some (S "No answer was produced.") := by
  refine ⟨?_, ?_, ?_, rfl⟩
  · intro hfe hfa
    unfold ask
    simp only [hfe, if_true, hfa, List.isEmpty_nil, if_true]
  · intro hfe hfs
    unfold ask
    simp only [hfe, Bool.false_eq_true, if_false, hfs]
  · intro hfe hvs hkey
    unfold ask
    simp only [hfe, Bool.false_eq_true, if_false, hvs, List.isEmpty_nil,
      if_true]
    simp only [fsTryFileSearch]
    unfold chatLeg
    simp only [hkey, Bool.not_true, Bool.false_eq_true, if_false]
    simp

/-- C3 witness: all three backends unconfigured gives the sentinel. -/
theorem C3_fallthrough_and_sentinel_witness :
    ask {} { foundry := fun _ => ⟨.ok (), .error [], [], .error []⟩,
             fsCall := fun _ => .error (), web := [],
             chat := fun _ => .error (S "no client") }
        (S "any question") [] 12 true none true none = .ok DEFAULT_EMPTY :=
  ((C3_fallthrough_and_sentinel {}
    { foundry := fun _ => ⟨.ok (), .error [], [], .error []⟩,
      fsCall := fun _ => .error (), web := [],
      chat := fun _ => .error (S "no client") }
    (S "any question") [] 12 true none true none).2.2.1) rfl rfl rfl

/-- C3 counterexample: the Foundry backend is configured and yields an
empty result; the file-search backend is also configured and would give a
non-empty answer, yet `ask` returns the sentinel without trying it. -/
theorem C3_fallthrough_and_sentinel_counterexample :
    ask { ai_foundry_project_endpoint := S "https://ep",
          ai_foundry_assistant_id := S "aid",
          openai_api_key := S "k",
          openai_vector_store_id := S "vs" }
        { foundry := fun _ =>
            ⟨.ok (), .ok ((some (S "t1"), some (S "r1")), S "resp"),
             [.ok (S "completed", S "obj")], .ok none⟩,
          fsCall := fun _ => .ok (S "\x7b\"raw_markdown\": \"From file search\"\x7d"),
          web := [],
          chat := fun _ => .ok (S "chat answer") }
        (S "q") [] 12 true none true none = .ok DEFAULT_EMPTY ∧
    fsTryFileSearch (some (S "vs")) true
        (fun _ => .ok (S "\x7b\"raw_markdown\": \"From file search\"\x7d")) []
      = .ok (some { raw_markdown := some (S "From file search") }) ∧
    (pyStrip (S "From file search")).isEmpty = false ∧
    DEFAULT_EMPTY.raw_markdown = some (S "No answer was produced.") :=
  ⟨rfl, rfl, rfl, rfl⟩

theorem withFollowUps_of_empty (q : Str) (a : RegulAIteAnswer)
    (h : a.follow_up_suggestions = []) :
    (withFollowUps q a).follow_up_suggestions = followUpTemplates q := by
  simp [withFollowUps, h]

theorem followUpTemplates_length (q : Str) :
    (followUpTemplates q).length = 6 := rfl

/-- C6 (corrected: synthesis also runs for strict queries on the
managed-agent and file-search paths — see the counterexample): whenever
the resolved record lacks follow-ups, exactly the six fixed templates are
synthesized on the managed-agent path, the file-search path and the
non-strict plain-completion path; a strict query on the plain-completion
path gets none. -/
theorem C6_follow_up_synthesis (env : Env) (o : Oracles) (q : Str)
    (hist : List (Str × Str)) (kHint : Nat) (ev : Bool) (mh : Option Str)
    (we : Bool) (vid : Option Str) :
    (∀ raw ans, foundryEnabled env = true →
      askFoundryAgent (o.foundry (foundryUserText q (historyToBrief hist)))
        = .ok raw →
      raw.isEmpty = false → normalizeFoundry raw = .ok ans →
      ask env o q hist kHint ev mh we vid = .ok (withFollowUps q ans)) ∧
    (∀ a, foundryEnabled env = false →
      fsTryFileSearch
          (if (pyStrip (pyOr (vid.getD []) env.openai_vector_store_id)).isEmpty
           then none
           else some (pyStrip (pyOr (vid.getD []) env.openai_vector_store_id)))
          (!(pyStrip env.openai_api_key).isEmpty) o.fsCall
          (fsMessages kHint ev (normalizeMode mh)
            (styleMsgOf (detectIntent q)) (historyToBrief hist) q)
        = .ok (some a) →
      (pyStrip (a.raw_markdown.getD [])).isEmpty = false →
      ask env o q hist kHint ev mh we vid = .ok (withFollowUps q a)) ∧
    (∀ text ans, foundryEnabled env = false →
      pyStrip (pyOr (vid.getD []) env.openai_vector_store_id) = [] →
      (pyStrip env.openai_api_key).isEmpty = false →
      (∀ ms, o.chat ms = .ok text) →
      (detectIntent q).concise = false →
      normalizeChat text = .ok ans →
      (pyStrip (ans.raw_markdown.getD [])).isEmpty = false →
      ask env o q hist kHint ev mh we vid = .ok (withFollowUps q ans)) ∧
    (∀ text, foundryEnabled env = false →
      pyStrip (pyOr (vid.getD []) env.openai_vector_store_id) = [] →
      (pyStrip env.openai_api_key).isEmpty = false →
      (∀ ms, o.chat ms = .ok text) →
      (detectIntent q).concise = true →
      ∃ md, ask env o q hist kHint ev mh we vid
        = .ok { raw_markdown := some md, follow_up_suggestions := [] }) ∧
    (∀ a, a.follow_up_suggestions = [] →
      (withFollowUps q a).follow_up_suggestions = followUpTemplates q ∧
      (followUpTemplates q).length = 6) ∧
    (∀ a, a.follow_up_suggestions ≠ [] → withFollowUps q a = a) := by
  refine ⟨?_, ?_, ?_, ?_, ?_, ?_⟩
  · intro raw ans hfe hfa hraw hnorm
    unfold ask
    simp only [hfe, if_true, hfa, hraw, Bool.false_eq_true, if_false, hnorm]
  · intro a hfe hfs ha
    unfold ask
    simp only [hfe, Bool.false_eq_true, if_false, hfs, ha, Bool.not_eq_true,
      if_false]
    simp [ha]
  · intro text ans hfe hvs hkey hchat hcon hnorm hne
    unfold ask
    simp only [hfe, Bool.false_eq_true, if_false, hvs, List.isEmpty_nil,
      if_true]
    simp only [fsTryFileSearch]
    unfold chatLeg
    simp only [hkey, Bool.not_eq_true, Bool.not_false, if_false, hchat]
    simp only [hcon, Bool.false_eq_true, if_false, hnorm]
    simp only [hne, Bool.false_eq_true, if_false]
    simp
  · intro text hfe hvs hkey hchat hcon
    refine ⟨if (pyStrip (stripCodeFences text)).isEmpty then S "not found"
            else pyStrip (stripCodeFences text), ?_⟩
    unfold ask
    simp only [hfe, Bool.false_eq_true, if_false, hvs, List.isEmpty_nil,
      if_true]
    simp only [fsTryFileSearch]
    unfold chatLeg
    simp only [hkey, Bool.not_eq_true, Bool.not_false, if_false, hchat]
    simp only [hcon, if_true]
    simp
  · intro a ha
    exact ⟨withFollowUps_of_empty q a ha, rfl⟩
  · intro a ha
    simp [withFollowUps, ha]

/-- C6 witness: a non-strict query on the plain-completion path whose
backend answer lacks follow-ups receives exactly the six templates. -/
theorem C6_follow_up_synthesis_witness :
    ask { openai_api_key := S "k" }
        { foundry := fun _ => ⟨.ok (), .error [], [], .error []⟩,
          fsCall := fun _ => .error (), web := [],
          chat := fun _ => .ok (S "An answer.") }
        (S "what is the policy?") [] 12 true none false none
      = .ok { raw_markdown := some (S "An answer."),
              follow_up_suggestions :=
                followUpTemplates (S "what is the policy?") } ∧
    (followUpTemplates (S "what is the policy?")).length = 6 := by
  constructor
  · exact ((C6_follow_up_synthesis { openai_api_key := S "k" }
      { foundry := fun _ => ⟨.ok (), .error [], [], .error []⟩,
        fsCall := fun _ => .error (), web := [],
        chat := fun _ => .ok (S "An answer.") }
      (S "what is the policy?") [] 12 true none false none).2.2.1
      (S "An answer.") { raw_markdown := some (S "An answer.") }
      rfl rfl rfl (fun _ => rfl) rfl rfl rfl).trans rfl
  · rfl

/-- C6 counterexample: a strict/concise query on the managed-agent path
still gets the six synthesized follow-ups. -/
theorem C6_follow_up_synthesis_counterexample :
    (detectIntent (S "return only the section id, nothing else")).concise
      = true ∧
    ask { ai_foundry_project_endpoint := S "https://ep",
          ai_foundry_assistant_id := S "aid" }
        { foundry := fun _ =>
            ⟨.ok (), .ok ((some (S "t1"), some (S "r1")), S "resp"),
             [.ok (S "completed", S "obj")], .ok (some (S "CM-5.2"))⟩,
          fsCall := fun _ => .error (), web := [],
          chat := fun _ => .error (S "unused") }
        (S "return only the section id, nothing else") [] 12 true none true
        none
      = .ok { raw_markdown := some (S "CM-5.2"),
              follow_up_suggestions :=
                followUpTemplates
                  (S "return only the section id, nothing else") } ∧
    (followUpTemplates
        (S "return only the section id, nothing else")).length = 6 :=
  ⟨rfl, rfl, rfl⟩

theorem takeCommaClose_none_iff (c : Char) (l : Str) :
    takeCommaClose c l = none ↔
      ∀ x ∈ (l.dropWhile isPySpace).head?, ¬ x = c := by
  unfold takeCommaClose
  cases h : l.dropWhile isPySpace with
  | nil => simp
  | cons y r =>
      by_cases hy : y = c
      · simp [hy]
      · simp [hy]

theorem takeCommaClose_extend {c : Char} {p z : Str}
    (h : takeCommaClose c (p ++ [',']) = none) :
    takeCommaClose c (p ++ ',' :: z) = none := by
  rw [takeCommaClose_none_iff] at h ⊢
  intro x hx
  apply h x
  rw [List.dropWhile_append] at hx ⊢
  by_cases hp : (p.dropWhile isPySpace).isEmpty
  · simp only [hp, if_true] at hx ⊢
    have hcomma : isPySpace ',' = false := rfl
    rw [List.dropWhile_cons, hcomma] at hx
    simp only [Bool.false_eq_true, if_false, List.head?_cons] at hx
    rw [List.dropWhile_cons, hcomma]
    simpa using hx
  · simp only [hp, Bool.false_eq_true, if_false] at hx ⊢
    cases hd : p.dropWhile isPySpace with
    | nil => rw [hd] at hp; simp at hp
    | cons y d' =>
        rw [hd] at hx
        simpa using hx

theorem subCCF_no_occur {c : Char} :
    ∀ (f : Nat) (l : Str), occursCommaClose c l = false → l.length ≤ f →
      subCommaCloseF c f l = l := by
  intro f
  induction f with
  | zero =>
      intro l h hl
      cases l with
      | nil => rfl
      | cons x rest => simp at hl
  | succ f ih =>
      intro l h hl
      cases l with
      | nil => rfl
      | cons x rest =>
          unfold occursCommaClose at h
          simp only [Bool.or_eq_false_iff] at h
          obtain ⟨h1, h2⟩ := h
          unfold subCommaCloseF
          by_cases hx : x = ','
          · rw [if_pos hx] at h1
            have hnone : takeCommaClose c rest = none := by
              cases ht : takeCommaClose c rest with
              | none => rfl
              | some r => rw [ht] at h1; simp at h1
            rw [if_pos hx, hnone]
            rw [ih rest h2 (by simpa using hl)]
            rw [hx]
          · rw [if_neg hx]
            rw [ih rest h2 (by simpa using hl)]

theorem subCCF_tail {c : Char} (_hc : ¬ c = ',') (hcws : isPySpace c = false) :
    ∀ (p : Str) (f : Nat) (w : Str), (∀ x ∈ w, isPySpace x = true) →
      occursCommaClose c (p ++ [',']) = false →
      (p ++ (',' :: (w ++ [c]))).length ≤ f →
      subCommaCloseF c f (p ++ (',' :: (w ++ [c]))) = p ++ [c] := by
  intro p
  induction p with
  | nil =>
      intro f w hw hocc hlen
      cases f with
      | zero => simp at hlen
      | succ f' =>
          simp only [List.nil_append] at hlen ⊢
          unfold subCommaCloseF
          rw [if_pos rfl]
          have htake : takeCommaClose c (w ++ [c]) = some [] := by
            unfold takeCommaClose
            rw [dropWhile_all_append _ hw]
            simp [List.dropWhile_cons, hcws]
          rw [htake]
          cases f' <;> simp [subCommaCloseF]
  | cons x p' ihp =>
      intro f w hw hocc hlen
      cases f with
      | zero => simp at hlen
      | succ f' =>
          simp only [List.cons_append] at hlen ⊢
          unfold occursCommaClose at hocc
          simp only [List.cons_append, Bool.or_eq_false_iff] at hocc
          obtain ⟨h1, h2⟩ := hocc
          unfold subCommaCloseF
          by_cases hx : x = ','
          · rw [if_pos hx] at h1
            have htnone : takeCommaClose c (p' ++ [',']) = none := by
              cases ht : takeCommaClose c (p' ++ [',']) with
              | none => rfl
              | some r => rw [ht] at h1; simp at h1
            have hext : takeCommaClose c (p' ++ (',' :: (w ++ [c]))) = none := by
              have := takeCommaClose_extend (z := w ++ [c]) htnone
              simpa using this
            rw [if_pos hx, hext]
            rw [ihp f' w hw h2 (by simpa using hlen)]
            rw [hx]
          · rw [if_neg hx]
            rw [ihp f' w hw h2 (by simpa using hlen)]

theorem subCommaClose_tail {c : Char} (hc : ¬ c = ',')
    (hcws : isPySpace c = false) (p w : Str)
    (hw : ∀ x ∈ w, isPySpace x = true)
    (hocc : occursCommaClose c (p ++ [',']) = false) :
    subCommaClose c (p ++ (',' :: (w ++ [c]))) = p ++ [c] :=
  subCCF_tail hc hcws p _ w hw hocc le_rfl

theorem subCommaClose_no_occur {c : Char} (l : Str)
    (h : occursCommaClose c l = false) : subCommaClose c l = l :=
  subCCF_no_occur _ l h le_rfl

/-- C8 (corrected: the repair substitutes every comma-close sequence, so
the object must contain the pattern only at its trailing comma — see the
counterexample): a JSON object text that is valid except for one trailing
comma before the final closing brace normalizes like its comma-free
equivalent. -/
theorem C8_trailing_comma_repair (p w : Str) (j : List (Str × PyVal))
    (hw : ∀ x ∈ w, isPySpace x = true)
    (hp1 : occursCommaClose '}' (p ++ [',']) = false)
    (hp2 : occursCommaClose ']' (p ++ ['}']) = false)
    (hh : p.head? = some '{')
    (hbad : jsonLoadsObj (p ++ (',' :: (w ++ ['}']))) = none)
    (hgood : jsonLoadsObj (p ++ ['}']) = some j)
    (hne : j ≠ []) :
    normalizeChat (p ++ (',' :: (w ++ ['}'])))
      = normalizeChat (p ++ ['}']) := by
  obtain ⟨p0, rfl⟩ : ∃ t, p = '{' :: t := by
    cases p with
    | nil => simp at hh
    | cons a l =>
        simp only [List.head?_cons, Option.some_inj] at hh
        exact ⟨l, by rw [hh]⟩
  have hbrace : isPySpace '{' = false := rfl
  have hclose : isPySpace '}' = false := rfl
  -- structural facts about the bad text
  have hbhead : (('{' :: p0) ++ (',' :: (w ++ ['}']))).head? = some '{' := rfl
  have hblast : (('{' :: p0) ++ (',' :: (w ++ ['}']))).getLast? = some '}' := by
    have hform : ('{' :: p0) ++ (',' :: (w ++ ['}']))
        = (('{' :: p0) ++ (',' :: w)) ++ ['}'] := by simp
    rw [hform, List.getLast?_concat]
  have hbstrip : pyStrip (('{' :: p0) ++ (',' :: (w ++ ['}'])))
      = ('{' :: p0) ++ (',' :: (w ++ ['}'])) := by
    apply pyStrip_eq_self
    · intro x hx
      rw [hbhead] at hx
      simp only [Option.mem_def, Option.some_inj] at hx
      subst hx; exact hbrace
    · intro x hx
      rw [hblast] at hx
      simp only [Option.mem_def, Option.some_inj] at hx
      subst hx; exact hclose
  have hbfence : (S "```").isPrefixOf
      (pyStrip (('{' :: p0) ++ (',' :: (w ++ ['}'])))) = false := by
    rw [hbstrip]
    simp [List.isPrefixOf, S]
  have hblen : 2 ≤ (('{' :: p0) ++ (',' :: (w ++ ['}']))).length := by
    simp
    omega
  -- structural facts about the good text
  have hghead : (('{' :: p0) ++ ['}'] : Str).head? = some '{' := rfl
  have hglast : (('{' :: p0) ++ ['}'] : Str).getLast? = some '}' :=
    List.getLast?_concat _
  have hgstrip : pyStrip (('{' :: p0) ++ ['}'])
      = ('{' :: p0) ++ ['}'] := by
    apply pyStrip_eq_self
    · intro x hx
      rw [hghead] at hx
      simp only [Option.mem_def, Option.some_inj] at hx
      subst hx; exact hbrace
    · intro x hx
      rw [hglast] at hx
      simp only [Option.mem_def, Option.some_inj] at hx
      subst hx; exact hclose
  have hgfence : (S "```").isPrefixOf
      (pyStrip (('{' :: p0) ++ ['}'])) = false := by
    rw [hgstrip]
    simp [List.isPrefixOf, S]
  have hglen : 2 ≤ (('{' :: p0) ++ ['}'] : Str).length := by simp
  -- repair computation
  have hrepair1 : subCommaClose '}' (('{' :: p0) ++ (',' :: (w ++ ['}'])))
      = ('{' :: p0) ++ ['}'] :=
    subCommaClose_tail (c := '}') (by simp) rfl _ w hw hp1
  have hrepair2 : subCommaClose ']' (('{' :: p0) ++ ['}'])
      = ('{' :: p0) ++ ['}'] :=
    subCommaClose_no_occur _ hp2
  -- parseJson of both texts is j
  have hpbad : parseJson (('{' :: p0) ++ (',' :: (w ++ ['}'])))  = j := by
    rw [parseJson_eq_core, stripCodeFences_eq_pyStrip hbfence, hbstrip]
    unfold parseJsonCore
    rw [braceSpan_full hbhead hblast hblen]
    simp only [hbad, hrepair1, hrepair2, hgood]
  have hpgood : parseJson (('{' :: p0) ++ ['}']) = j := by
    rw [parseJson_eq_core, stripCodeFences_eq_pyStrip hgfence, hgstrip]
    unfold parseJsonCore
    rw [braceSpan_full hghead hglast hglen]
    simp only [hgood]
  have hje : (j.isEmpty) = false := by cases j <;> simp_all
  unfold normalizeChat
  simp only [hpbad, hpgood, hje, Bool.false_eq_true, if_false]

/-- C8 witness: `"\x7b\"raw_markdown\": \"A\",\x7d"` normalizes like its
comma-free form; and the spec's `extra_bad` example recovers `"A"` via
the targeted `raw_markdown` extraction. -/
theorem C8_trailing_comma_repair_witness :
    normalizeChat (S "\x7b\"raw_markdown\": \"A\",\x7d")
      = normalizeChat (S "\x7b\"raw_markdown\": \"A\"\x7d") ∧
    normalizeChat (S "\x7b\"raw_markdown\": \"A\"\x7d")
      = .ok { raw_markdown := some (S "A") } ∧
    normalizeChat (S "\x7b\"raw_markdown\": \"A\", \"extra_bad\":,\x7d")
      = .ok { raw_markdown := some (S "A") } :=
  ⟨C8_trailing_comma_repair (S "\x7b\"raw_markdown\": \"A\"") []
    [(S "raw_markdown", .str (S "A"))]
    (by simp) rfl rfl rfl rfl rfl (by simp), rfl, rfl⟩

/-- C8 counterexample: when the comma-close pattern also occurs inside a
string value, the repair corrupts it — the trailing-comma text and its
comma-free equivalent normalize to different records. -/
theorem C8_trailing_comma_repair_counterexample :
    normalizeChat (S "\x7b\"raw_markdown\": \"a,\x7d\",\x7d")
      = .ok { raw_markdown := some (S "a\x7d") } ∧
    normalizeChat (S "\x7b\"raw_markdown\": \"a,\x7d\"\x7d")
      = .ok { raw_markdown := some (S "a,\x7d") } ∧
    ({ raw_markdown := some (S "a\x7d") } : RegulAIteAnswer)
      ≠ { raw_markdown := some (S "a,\x7d") } := by
  refine ⟨rfl, rfl, ?_⟩
  simp [S]

theorem recoverRecord_ok_of_not {data : List (Str × PyVal)}
    (h : recoverRaises data = false) :
    ∃ r, recoverRecord data = .ok r := by
  cases hv : validateAnswer data with
  | some a => exact ⟨a, by simp only [recoverRecord, hv]⟩
  | none =>
      unfold recoverRaises at h
      rw [hv] at h
      simp only [Option.isNone_none, Bool.true_and] at h
      cases hg : dictGet data (S "raw_markdown") with
      | none =>
          have hrw : recoverRecord data
              = .ok { raw_markdown := some (pyOr (unescapeField []) []) } := by
            simp only [recoverRecord, hv, hg]
          exact ⟨_, hrw⟩
      | some v =>
          rw [hg] at h
          cases v with
          | str s =>
              cases ht : pyTruthy (.str s) with
              | true =>
                  have hrw : recoverRecord data
                      = .ok { raw_markdown := some (pyOr (unescapeField s) []) } := by
                    simp only [recoverRecord, hv, hg, ht, if_true]
                  exact ⟨_, hrw⟩
              | false =>
                  have hrw : recoverRecord data
                      = .ok { raw_markdown := some (pyOr (unescapeField []) []) } := by
                    simp only [recoverRecord, hv, hg, ht, Bool.false_eq_true,
                      if_false]
                  exact ⟨_, hrw⟩
          | none =>
              have hrw : recoverRecord data
                  = .ok { raw_markdown := some (pyOr (unescapeField []) []) } := by
                simp only [recoverRecord, hv, hg, pyTruthy, Bool.false_eq_true,
                  if_false]
              exact ⟨_, hrw⟩
          | bool b =>
              have ht : pyTruthy (.bool b) = false := by simpa using h
              have hrw : recoverRecord data
                  = .ok { raw_markdown := some (pyOr (unescapeField []) []) } := by
                simp only [recoverRecord, hv, hg, ht, Bool.false_eq_true,
                  if_false]
              exact ⟨_, hrw⟩
          | int n =>
              have ht : pyTruthy (.int n) = false := by simpa using h
              have hrw : recoverRecord data
                  = .ok { raw_markdown := some (pyOr (unescapeField []) []) } := by
                simp only [recoverRecord, hv, hg, ht, Bool.false_eq_true,
                  if_false]
              exact ⟨_, hrw⟩
          | float l =>
              have ht : pyTruthy (.float l) = false := by simpa using h
              have hrw : recoverRecord data
                  = .ok { raw_markdown := some (pyOr (unescapeField []) []) } := by
                simp only [recoverRecord, hv, hg, ht, Bool.false_eq_true,
                  if_false]
              exact ⟨_, hrw⟩
          | list xs =>
              have ht : pyTruthy (.list xs) = false := by simpa using h
              have hrw : recoverRecord data
                  = .ok { raw_markdown := some (pyOr (unescapeField []) []) } := by
                simp only [recoverRecord, hv, hg, ht, Bool.false_eq_true,
                  if_false]
              exact ⟨_, hrw⟩
          | dict kvs =>
              have ht : pyTruthy (.dict kvs) = false := by simpa using h
              have hrw : recoverRecord data
                  = .ok { raw_markdown := some (pyOr (unescapeField []) []) } := by
                simp only [recoverRecord, hv, hg, ht, Bool.false_eq_true,
                  if_false]
              exact ⟨_, hrw⟩

theorem normalizeChat_ok_of_not {t : Str} (h : raisesOnText t = false) :
    ∃ r, normalizeChat t = .ok r := by
  cases hd : (parseJson t).isEmpty with
  | true =>
      have hrw : normalizeChat t
          = .ok { raw_markdown :=
              some (pyOr (unescapeField (pyStrip (stripCodeFences t))) []) } := by
        simp only [normalizeChat, hd, if_true]
      exact ⟨_, hrw⟩
  | false =>
      have hr : recoverRaises (parseJson t) = false := by
        unfold raisesOnText at h
        rw [hd] at h
        simpa using h
      obtain ⟨r, hr2⟩ := recoverRecord_ok_of_not hr
      refine ⟨r, ?_⟩
      simp only [normalizeChat, hd, Bool.false_eq_true, if_false]
      exact hr2

theorem fsTry_ok_of_not (vsid : Option Str) (hasClient : Bool)
    (call : List ChatMsg → Except Unit Str) (msgs : List ChatMsg)
    (h : ∀ t, call msgs = .ok t → raisesOnText (pyStrip t) = false) :
    ∃ x, fsTryFileSearch vsid hasClient call msgs = .ok x := by
  cases vsid with
  | none => exact ⟨none, rfl⟩
  | some v =>
      cases hcl : hasClient with
      | false => exact ⟨none, by simp [fsTryFileSearch]⟩
      | true =>
          cases hcall : call msgs with
          | error e => exact ⟨none, by simp [fsTryFileSearch, hcall]⟩
          | ok raw0 =>
              cases hemp : (pyStrip raw0).isEmpty with
              | true =>
                  exact ⟨none, by simp [fsTryFileSearch, hcall, hemp]⟩
              | false =>
                  cases hdata : (parseJson (pyStrip raw0)).isEmpty with
                  | true =>
                      have hrw : fsTryFileSearch (some v) true call msgs
                          = .ok (some
                            { raw_markdown :=
                                some (pyOr (unescapeField (pyStrip raw0)) []) }) := by
                        simp only [fsTryFileSearch, hcall, hemp, hdata,
                          Bool.false_eq_true, if_false, if_true,
                          not_true_eq_false]
                      exact ⟨_, hrw⟩
                  | false =>
                      have hr : recoverRaises (parseJson (pyStrip raw0))
                          = false := by
                        have hht := h raw0 hcall
                        unfold raisesOnText at hht
                        rw [hdata] at hht
                        simpa using hht
                      obtain ⟨r, hr2⟩ := recoverRecord_ok_of_not hr
                      refine ⟨some r, ?_⟩
                      simp only [fsTryFileSearch, hcall, hemp, hdata,
                        Bool.false_eq_true, if_false, not_true_eq_false, hr2]
                      rfl

theorem chatLeg_ok_of_not (env : Env) (o : Oracles) (q : Str)
    (intent : Intent) (kHint : Nat) (ev : Bool) (mode convo : Str)
    (we : Bool)
    (h : ∀ ms t, o.chat ms = .ok t → raisesOnText t = false) :
    ∃ r, chatLeg env o q intent kHint ev mode convo we = .ok r := by
  cases hcl : (pyStrip env.openai_api_key).isEmpty with
  | true => exact ⟨DEFAULT_EMPTY, by simp [chatLeg, hcl]⟩
  | false =>
      unfold chatLeg
      simp only []
      rw [hcl]
      rw [if_neg (by simp)]
      cases hchat : o.chat (chatMessages kHint ev mode (styleMsgOf intent)
          (schemaMsgOf intent) convo
          (if we ∧ ¬ intent.concise then webContext o.web else []) q) with
      | error e => exact ⟨errRecordChat e, rfl⟩
      | ok text =>
          cases hcon : intent.concise with
          | true =>
              refine ⟨{ raw_markdown :=
                          some (if (pyStrip (stripCodeFences text)).isEmpty
                                then S "not found"
                                else pyStrip (stripCodeFences text)),
                        follow_up_suggestions := [] }, ?_⟩
              rfl
          | false =>
              obtain ⟨r, hr⟩ := normalizeChat_ok_of_not (h _ _ hchat)
              cases hmd : (pyStrip (r.raw_markdown.getD [])).isEmpty with
              | true =>
                  refine ⟨DEFAULT_EMPTY, ?_⟩
                  simp [hr, hmd]
              | false =>
                  refine ⟨withFollowUps q r, ?_⟩
                  simp [hr, hmd]

/-- C1 (corrected: `ask` can raise a `ValidationError` when a recovered
JSON object fails validation with a truthy non-string `raw_markdown` on
the file-search or plain-completion path, and missing configuration
yields the sentinel record, not an error heading — see the
counterexample): under the stated no-raise condition `ask` always
returns a record; backend-call failures carry the `### Error` heading
plus details; missing configuration yields the sentinel. -/
theorem C1_no_escape_amended (env : Env) (o : Oracles) (q : Str)
    (hist : List (Str × Str)) (kHint : Nat) (ev : Bool) (mh : Option Str)
    (we : Bool) (vid : Option Str)
    (hfs : ∀ ms t, o.fsCall ms = .ok t → raisesOnText (pyStrip t) = false)
    (hchat : ∀ ms t, o.chat ms = .ok t → raisesOnText t = false) :
    (∃ r, ask env o q hist kHint ev mh we vid = .ok r) ∧
    (∀ e, foundryEnabled env = true →
      askFoundryAgent (o.foundry (foundryUserText q (historyToBrief hist)))
        = .error e →
      ask env o q hist kHint ev mh we vid = .ok (errRecordFoundry e) ∧
      (S "### Error").isPrefixOf ((errRecordFoundry e).raw_markdown.getD [])
        = true) ∧
    (∀ e, (S "### Error").isPrefixOf ((errRecordChat e).raw_markdown.getD [])
        = true) ∧
    (foundryEnabled env = false →
      pyStrip (pyOr (vid.getD []) env.openai_vector_store_id) = [] →
      (pyStrip env.openai_api_key).isEmpty = true →
      ask env o q hist kHint ev mh we vid = .ok DEFAULT_EMPTY ∧
      (S "### Error").isPrefixOf (DEFAULT_EMPTY.raw_markdown.getD [])
        = false) := by
  refine ⟨?_, ?_, fun e => rfl, ?_⟩
  · cases hfe : foundryEnabled env with
    | true =>
        unfold ask
        simp only [hfe, if_true]
        cases hfa : askFoundryAgent
            (o.foundry (foundryUserText q (historyToBrief hist))) with
        | error e => exact ⟨errRecordFoundry e, rfl⟩
        | ok raw =>
            cases hraw : raw.isEmpty with
            | true => exact ⟨DEFAULT_EMPTY, by simp [hraw]⟩
            | false =>
                cases hn : normalizeFoundry raw with
                | error u =>
                    exact ⟨errRecordFoundry pydanticErrMsg, by simp [hraw, hn]⟩
                | ok ans => exact ⟨withFollowUps q ans, by simp [hraw, hn]⟩
    | false =>
        unfold ask
        simp only [hfe, Bool.false_eq_true, if_false]
        obtain ⟨x, hx⟩ := fsTry_ok_of_not
          (if (pyStrip (pyOr (vid.getD [])
                env.openai_vector_store_id)).isEmpty
           then none
           else some (pyStrip (pyOr (vid.getD [])
                env.openai_vector_store_id)))
          (!(pyStrip env.openai_api_key).isEmpty) o.fsCall
          (fsMessages kHint ev (normalizeMode mh)
            (styleMsgOf (detectIntent q)) (historyToBrief hist) q)
          (fun t ht => hfs _ t ht)
        rw [hx]
        cases x with
        | none =>
            exact chatLeg_ok_of_not env o q (detectIntent q) kHint ev
              (normalizeMode mh) (historyToBrief hist) we hchat
        | some a =>
            cases hmd : (pyStrip (a.raw_markdown.getD [])).isEmpty with
            | true =>
                obtain ⟨r, hr⟩ := chatLeg_ok_of_not env o q (detectIntent q)
                  kHint ev (normalizeMode mh) (historyToBrief hist) we hchat
                exact ⟨r, by simp [hmd, hr]⟩
            | false =>
                exact ⟨withFollowUps q a, by simp [hmd]⟩
  · intro e hfe hfa
    constructor
    · unfold ask
      simp only [hfe, if_true, hfa]
    · rfl
  · intro hfe hvs hkey
    constructor
    · unfold ask
      simp only [hfe, Bool.false_eq_true, if_false, hvs, List.isEmpty_nil,
        if_true]
      simp only [fsTryFileSearch]
      unfold chatLeg
      simp only [hkey, Bool.not_true, Bool.false_eq_true, if_false]
      simp
    · rfl

/-- C1 witness: with raise-free backend texts, `ask` returns a record. -/
theorem C1_no_escape_amended_witness :
    ∃ r, ask { openai_api_key := S "k" }
        { foundry := fun _ => ⟨.ok (), .error [], [], .error []⟩,
          fsCall := fun _ => .error (), web := [],
          chat := fun _ => .ok (S "plain answer") }
        (S "a question") [] 12 true none false none = .ok r :=
  (C1_no_escape_amended { openai_api_key := S "k" }
    { foundry := fun _ => ⟨.ok (), .error [], [], .error []⟩,
      fsCall := fun _ => .error (), web := [],
      chat := fun _ => .ok (S "plain answer") }
    (S "a question") [] 12 true none false none
    (fun _ _ ht => nomatch ht)
    (fun _ t ht => by cases ht; rfl)).1

/-- C1 counterexample: a plain-completion reply whose JSON has a truthy
non-string `raw_markdown` makes `ask` raise (a pydantic
`ValidationError` escapes); and with no backend configured the failure is
the sentinel record, whose markdown carries no error heading. -/
theorem C1_no_escape_counterexample :
    ask { openai_api_key := S "k" }
        { foundry := fun _ => ⟨.ok (), .error [], [], .error []⟩,
          fsCall := fun _ => .error (), web := [],
          chat := fun _ => .ok (S "\x7b\"raw_markdown\": 5\x7d") }
        (S "q") [] 12 true none false none = .error () ∧
    ask {} { foundry := fun _ => ⟨.ok (), .error [], [], .error []⟩,
             fsCall := fun _ => .error (), web := [],
             chat := fun _ => .error (S "no client") }
        (S "q") [] 12 true none false none = .ok DEFAULT_EMPTY ∧
    (S "### Error").isPrefixOf (DEFAULT_EMPTY.raw_markdown.getD [])
      = false :=
  ⟨rfl, rfl, rfl⟩

end RegulAIte
